import Mathlib

/-!
Verification development for the fakeblok game core (src/game.rs, src/server.rs).

Modelling choices, stated once here:

* `GameInt` is `f32` in the source; it is modelled as `ℚ`.  All concrete
  inputs used below are small integers, on which `f32` arithmetic is exact,
  and the general theorems are statements about the idealised (exact)
  arithmetic the source expresses.
* Rust's `%` on floats is truncated remainder; it is modelled by `fmod`
  below (`a - b * trunc (a / b)` with truncation toward zero).
* `f32::copysign` is modelled componentwise as `if sign < 0 then -|a| else |a|`;
  the sign of `0` is positive.  (`-0.0` is not representable in `ℚ`; in every
  expression of the source a `-0.0` behaves like `0.0`, since the results only
  flow into sums and comparisons.)
* `slab::Slab<T>` is modelled as `List (Option α)`: the underlying slot
  vector, `none` marking a vacant slot.  `Slab::len()` is the number of
  occupied slots (this matters: `move_entity` and `tick` iterate over
  `0..len()`).  `insert` is modelled as filling the lowest vacant slot; for
  the states considered here (no removal followed by re-insertion) this
  coincides with slab's free-list behaviour.
* Rust panics (indexing a vacant slot) are modelled as no-ops or `none`
  results, as noted at each definition.  Every call site exercised by the
  theorems below indexes live slots only.
* `Rectangle::segments_helper` and `Game::move_entity` are recursive; the
  source's termination arguments (segment recursion is bounded for positive
  world bounds, the push chain is bounded by the `moved_this_action` guard)
  are represented by an explicit fuel parameter, instantiated generously by
  the wrappers.  In the source, `segments_helper` does not terminate for a
  non-positive world bound and `move_entity`'s recursion depth is at most one
  more than the number of unmoved entities; the wrapper fuel
  `positions.length + 5` strictly dominates both.
* The pendulum branch of `Game::tick` (game.rs:506-515) recomputes velocities
  with `f32` `sqrt`/`sin` and is not modelled; `Game.tick_motion` models the
  time update and the movement loop (game.rs:486, 497-505).  Every state
  considered below has `animation = None`, for which that branch is a no-op.
  The two `&mut` diagnostics counters of `tick` are logging-only and omitted.
* `random_color()` draws from a thread-local RNG; colors are passed as
  explicit parameters (they are display-only and never read by the core).
-/

set_option allowUnsafeReducibility true in
attribute [semireducible] Rat.add Rat.sub Rat.mul Rat.inv Rat.ofScientific

/-- `Point` (game.rs:34-38), with `GameInt` modelled as `ℚ`. -/
structure Point where
  x : ℚ
  y : ℚ
deriving DecidableEq

/-- `Point::new` (game.rs:41-43). -/
def Point.new (x y : ℚ) : Point := ⟨x, y⟩

/-- `Point::is_below` (game.rs:45-47): `self.y > other.y`. -/
def Point.is_below (self other : Point) : Prop := other.y < self.y

/-- `Point::is_right_of` (game.rs:49-51): `self.x > other.x`. -/
def Point.is_right_of (self other : Point) : Prop := other.x < self.x

instance (p q : Point) : Decidable (p.is_below q) :=
  inferInstanceAs (Decidable (q.y < p.y))

instance (p q : Point) : Decidable (p.is_right_of q) :=
  inferInstanceAs (Decidable (q.x < p.x))

/-- `Point::is_origin` (game.rs:53-55). -/
def Point.is_origin (self : Point) : Prop := self.x = 0 ∧ self.y = 0

instance (p : Point) : Decidable p.is_origin :=
  inferInstanceAs (Decidable (p.x = 0 ∧ p.y = 0))

/-- `Point::at_x` (game.rs:57-59). -/
def Point.at_x (self : Point) (x : ℚ) : Point := ⟨x, self.y⟩

/-- `Point::at_y` (game.rs:61-63). -/
def Point.at_y (self : Point) (y : ℚ) : Point := ⟨self.x, y⟩

/-- `Point::max` (game.rs:66-71), element-wise maximum. -/
def Point.max (self other : Point) : Point :=
  ⟨Max.max self.x other.x, Max.max self.y other.y⟩

/-- `Point::min` (game.rs:74-79), element-wise minimum. -/
def Point.min (self other : Point) : Point :=
  ⟨Min.min self.x other.x, Min.min self.y other.y⟩

/-- `f32::copysign` on one coordinate: magnitude of `a`, sign of `b`
(the sign of `0` is positive, see the header). -/
def qcopysign (a b : ℚ) : ℚ := if b < 0 then -|a| else |a|

/-- `Point::copysign` (game.rs:81-86). -/
def Point.copysign (self sign : Point) : Point :=
  ⟨qcopysign self.x sign.x, qcopysign self.y sign.y⟩

/-- `Point::abs` (game.rs:88-93). -/
def Point.abs (self : Point) : Point := ⟨|self.x|, |self.y|⟩

/-- `impl Sub for Point` (game.rs:110-119). -/
instance : Sub Point := ⟨fun a b => ⟨a.x - b.x, a.y - b.y⟩⟩

/-- `impl Add for Point` (game.rs:128-137). -/
instance : Add Point := ⟨fun a b => ⟨a.x + b.x, a.y + b.y⟩⟩

/-- `impl Mul<GameInt> for Point` (game.rs:146-155), scalar multiplication. -/
def Point.scale (self : Point) (m : ℚ) : Point := ⟨self.x * m, self.y * m⟩

theorem Point.sub_def (a b : Point) : a - b = ⟨a.x - b.x, a.y - b.y⟩ := rfl

theorem Point.add_def (a b : Point) : a + b = ⟨a.x + b.x, a.y + b.y⟩ := rfl

/-- Truncation toward zero, as Rust float-to-int truncation / the implicit
truncation in the float remainder. -/
def rtrunc (q : ℚ) : ℤ := if 0 ≤ q then ⌊q⌋ else ⌈q⌉

/-- Rust `%` on `f32`: truncated remainder `a - b * trunc (a / b)`. -/
def fmod (a b : ℚ) : ℚ := a - b * (rtrunc (a / b) : ℚ)

/-- `Rectangle` (game.rs:556-561). -/
structure Rectangle where
  top_left : Point
  width : ℚ
  height : ℚ
deriving DecidableEq

/-- `Rectangle::new` (game.rs:564-570). -/
def Rectangle.new (top_left : Point) (width height : ℚ) : Rectangle :=
  ⟨top_left, width, height⟩

/-- `Rectangle::bottom_right` (game.rs:634-640). -/
def Rectangle.bottom_right (self : Rectangle) : Point :=
  self.top_left + ⟨self.width, self.height⟩

/-- `Rectangle::move_` (game.rs:572-575):
`top_left.x = (width + top_left.x + (diff.x % width)) % width`, same for `y`. -/
def Rectangle.move_ (self : Rectangle) (diff : Point) (width height : ℚ) : Rectangle :=
  { self with top_left := ⟨fmod (width + self.top_left.x + fmod diff.x width) width,
                           fmod (height + self.top_left.y + fmod diff.y height) height⟩ }

/-- `Rectangle::overlap` (game.rs:577-595). -/
def Rectangle.overlap (self other : Rectangle) : Option Rectangle :=
  let self_bottom_right := self.bottom_right
  let other_bottom_right := other.bottom_right
  if self.top_left.x < other_bottom_right.x ∧ self.top_left.y < other_bottom_right.y ∧
     other.top_left.x < self_bottom_right.x ∧ other.top_left.y < self_bottom_right.y then
    let x := max self.top_left.x other.top_left.x
    let y := max self.top_left.y other.top_left.y
    some ⟨⟨x, y⟩, min self_bottom_right.x other_bottom_right.x - x,
                  min self_bottom_right.y other_bottom_right.y - y⟩
  else
    none

/-- `Rectangle::segments_helper` (game.rs:601-632), with the emitted rectangles
collected into a list in emission order (bottom-overflow pieces, then
right-overflow pieces, then the clipped rectangle itself).  The source
recursion is represented with fuel (see the header); fuel `3` suffices for any
rectangle with positive size at most the world size and top-left inside the
world. -/
def segsList : Nat → Rectangle → Point → List Rectangle
  | 0, _, _ => []
  | n + 1, self, bottom_right =>
    let my_bottom_right := self.bottom_right
    (if my_bottom_right.is_below bottom_right then
       segsList n ⟨⟨self.top_left.x, 0⟩, self.width, my_bottom_right.y - bottom_right.y⟩
         bottom_right
     else []) ++
    (if my_bottom_right.is_right_of bottom_right then
       segsList n ⟨⟨0, self.top_left.y⟩, my_bottom_right.x - bottom_right.x, self.height⟩
         bottom_right
     else []) ++
    [⟨self.top_left, min self.width (bottom_right.x - self.top_left.x),
                     min self.height (bottom_right.y - self.top_left.y)⟩]

/-- Membership of a point in a rectangle, half-open on the right and bottom
(matching the strict comparisons of `Rectangle::overlap`). -/
def Rectangle.memP (r : Rectangle) (p : Point) : Prop :=
  r.top_left.x ≤ p.x ∧ p.x < r.top_left.x + r.width ∧
  r.top_left.y ≤ p.y ∧ p.y < r.top_left.y + r.height

/-- A point lies inside one world period `[0,W) × [0,H)`. -/
def inWorld (bottom_right p : Point) : Prop :=
  0 ≤ p.x ∧ p.x < bottom_right.x ∧ 0 ≤ p.y ∧ p.y < bottom_right.y

/-- A point lies in the logical, infinitely-tiled copy of `r` on the torus:
some integer translate of the point by world periods lands in `r`. -/
def tiledMem (r : Rectangle) (bottom_right p : Point) : Prop :=
  ∃ k j : ℤ, r.memP ⟨p.x + k * bottom_right.x, p.y + j * bottom_right.y⟩

/-! ## The entity store: `slab::Slab<T>` as a slot vector -/

/-- A slab is its underlying slot vector; `none` is a vacant slot. -/
abbrev Slab (α : Type) : Type := List (Option α)

/-- Read a slot; out-of-range reads like a vacant slot. -/
def Slab.read (l : Slab α) (i : Nat) : Option α := l.getD i none

/-- `Slab::contains` (a live slot). -/
def Slab.holds (l : Slab α) (i : Nat) : Prop := (Slab.read l i).isSome = true

instance (l : Slab α) (i : Nat) : Decidable (Slab.holds l i) :=
  inferInstanceAs (Decidable ((Slab.read l i).isSome = true))

/-- `Slab::len()`: the number of occupied slots (not the capacity). -/
def Slab.size (l : Slab α) : Nat := (l.filter (fun o => o.isSome)).length

/-- Overwrite a live slot (`slab[i] = v`).  Rust panics when the slot is
vacant or out of range; modelled as a no-op (no call site below writes to a
vacant slot). -/
def Slab.write (l : Slab α) (i : Nat) (v : α) : Slab α :=
  if Slab.holds l i then l.set i (some v) else l

/-- `Slab::insert`: fill the lowest vacant slot (see the header note on
slab's free list) and return its index. -/
def Slab.push (l : Slab α) (v : α) : Slab α × Nat :=
  match l.findIdx? (fun o => o.isNone) with
  | some i => (l.set i (some v), i)
  | none => (l ++ [some v], l.length)

/-- `Slab::remove`: vacate a live slot.  Rust panics when the slot is already
vacant; modelled as a no-op. -/
def Slab.vacate (l : Slab α) (i : Nat) : Slab α :=
  if Slab.holds l i then l.set i none else l

/-- `Animation` (game.rs:27-32): the only variant is `Pendulum`. -/
structure Animation where
  distance : Point
  max_distance : Point
deriving DecidableEq

/-- `types::Rectangle<GameInt>` used as a color (RGBA). -/
structure Color where
  r : ℚ
  g : ℚ
  b : ℚ
  a : ℚ
deriving DecidableEq

/-- `Game` (game.rs:190-207).  The `time` field is advanced by `tick`. -/
structure Game where
  square_side_length : ℚ
  bottom_right : Point
  positions : Slab Rectangle
  velocities : Slab Point
  animations : Slab (Option Animation)
  moveable : Slab Bool
  moved_this_action : Slab Bool
  colors : Slab Color
  time : ℚ
deriving DecidableEq

/-- `Game::width` (game.rs:547-549). -/
def Game.width (g : Game) : ℚ := g.bottom_right.x

/-- `Game::height` (game.rs:551-553). -/
def Game.height (g : Game) : ℚ := g.bottom_right.y

/-- `Entity` (game.rs:293-300). -/
structure Entity where
  position : Rectangle
  velocity : Point
  animation : Option Animation
  moveable : Bool
  moved_this_action : Bool
  color : Color
deriving DecidableEq

/-- `Game::insert_entity` (game.rs:378-389): insert every component at the
same fresh id (the source asserts the ids agree; with equally-shaped
component slabs the lowest vacant slot is the same in each). -/
def Game.insert_entity (g : Game) (e : Entity) : Game × Nat :=
  let (positions, id) := Slab.push g.positions e.position
  ({ g with
      positions := positions
      velocities := (Slab.push g.velocities e.velocity).1
      animations := (Slab.push g.animations e.animation).1
      moveable := (Slab.push g.moveable e.moveable).1
      moved_this_action := (Slab.push g.moved_this_action e.moved_this_action).1
      colors := (Slab.push g.colors e.color).1 }, id)

/-- `Game::insert_new_player_square` (game.rs:352-367): a moveable square of
side `square_side_length` at the origin, zero velocity, no animation.  The
color comes from `random_color()` and is passed in explicitly (display-only). -/
def Game.insert_new_player_square (g : Game) (color : Color) : Game × Nat :=
  g.insert_entity
    { position := Rectangle.new ⟨0, 0⟩ g.square_side_length g.square_side_length
      velocity := ⟨0, 0⟩
      animation := none
      moveable := true
      moved_this_action := false
      color := color }

/-- `Game::remove_entity` (game.rs:369-376): vacate the entity's slot in
every component slab. -/
def Game.remove_entity (g : Game) (entity : Nat) : Game :=
  { g with
      positions := Slab.vacate g.positions entity
      velocities := Slab.vacate g.velocities entity
      animations := Slab.vacate g.animations entity
      moveable := Slab.vacate g.moveable entity
      moved_this_action := Slab.vacate g.moved_this_action entity
      colors := Slab.vacate g.colors entity }

/-- The inner fold of `Game::entity_overlap` (game.rs:391-404): the maximal
per-axis overlap of one mover segment against all segments of `other`. -/
def segOverlapMax (n : Nat) (eseg : Rectangle) (otherRect : Rectangle)
    (bottom_right : Point) : Point :=
  (segsList n otherRect bottom_right).foldl
    (fun acc r =>
      match eseg.overlap r with
      | some o => acc.max ⟨o.width, o.height⟩
      | none => acc)
    ⟨0, 0⟩

/-- `Game::entity_overlap` (game.rs:391-404): fold the per-segment maxima
with element-wise `max`, starting from the origin.  Reads `positions[other]`
(dead `other` would panic in Rust; modelled as zero overlap — every caller
checks liveness first). -/
def Game.entity_overlap (n : Nat) (g : Game) (entity_segments : List Rectangle)
    (other : Nat) : Point :=
  match Slab.read g.positions other with
  | none => ⟨0, 0⟩
  | some otherRect =>
      (entity_segments.map
        (fun eseg => segOverlapMax n eseg otherRect g.bottom_right)).foldl
        Point.max ⟨0, 0⟩

/-- Mark `moved_this_action[entity] = true`. -/
def Game.setMoved (g : Game) (entity : Nat) : Game :=
  { g with moved_this_action := Slab.write g.moved_this_action entity true }

/-- Overwrite `positions[entity]`. -/
def Game.setPos (g : Game) (entity : Nat) (r : Rectangle) : Game :=
  { g with positions := Slab.write g.positions entity r }

/-- One iteration of the loop of `Game::move_entity` (game.rs:422-444),
parameterised by the recursive call (applied with one unit less fuel). -/
def moveLoopStep (rec : Game → Nat → Point → Game × Point)
    (segN : Nat) (entity : Nat) (delta : Point) (entity_segments : List Rectangle)
    (acc : Game × Point) (id : Nat) : Game × Point :=
  let (g, overlap) := acc
  if ¬ Slab.holds g.positions id then acc
  else if id = entity then acc
  else if (Slab.read g.moved_this_action id).getD false then acc
  else
    let entity_overlap := Game.entity_overlap segN g entity_segments id
    if entity_overlap.x = 0 ∨ entity_overlap.y = 0 then acc
    else if (Slab.read g.moveable id).getD false then
      let to_move := (entity_overlap.min delta.abs).copysign delta
      let g' := (rec g id to_move).1
      (g', overlap.max (Game.entity_overlap segN g' entity_segments id))
    else (g, overlap.max entity_overlap)

/-- The tail of `Game::move_entity` (game.rs:445-449): retract the mover when
the residual overlap is positive on both axes, and return `delta - overlap`. -/
def moveRetract (game_width game_height : ℚ) (entity : Nat) (delta : Point)
    (p : Game × Point) : Game × Point :=
  (if 0 < p.2.x ∧ 0 < p.2.y then
     match Slab.read p.1.positions entity with
     | some r3 =>
         Game.setPos p.1 entity
           (r3.move_ (((p.2.min delta.abs).copysign delta).scale (-1))
             game_width game_height)
     | none => p.1
   else p.1, delta - p.2)

/-- `Game::move_entity` (game.rs:413-450), with fuel for the push-chain
recursion (see the header).  Reading a dead `entity` position (a Rust panic)
returns the game unchanged. -/
def Game.move_entity_fuel : Nat → Game → Nat → Point → Game × Point
  | 0, g, _, delta => (g, delta)
  | n + 1, g0, entity, delta =>
    match Slab.read (Game.setMoved g0 entity).positions entity with
    | none => (Game.setMoved g0 entity, delta)
    | some r =>
      let moved :=
        Game.setPos (Game.setMoved g0 entity) entity
          (r.move_ delta (Game.width g0) (Game.height g0))
      moveRetract (Game.width g0) (Game.height g0) entity delta
        ((List.range (Slab.size moved.positions)).foldl
          (moveLoopStep (Game.move_entity_fuel n) (n + 1) entity delta
            (segsList (n + 1) (r.move_ delta (Game.width g0) (Game.height g0))
              moved.bottom_right))
          (moved, ⟨0, 0⟩))

/-- Wrapper with adequate fuel: the push chain visits each entity at most
once, so its depth is at most `positions.length + 1`, and each segment
computation needs fuel at most `3`; `positions.length + 5` dominates both. -/
def Game.move_entity (g : Game) (entity : Nat) (delta : Point) : Game × Point :=
  Game.move_entity_fuel (g.positions.length + 5) g entity delta

/-- Clear every `moved_this_action` flag (game.rs:407-409). -/
def Game.clearMoved (g : Game) : Game :=
  { g with moved_this_action := g.moved_this_action.map (Option.map (fun _ => false)) }

/-- `Game::start_move_entity` (game.rs:406-411). -/
def Game.start_move_entity (g : Game) (entity : Nat) (delta : Point) : Game × Point :=
  (Game.clearMoved g).move_entity entity delta

/-- The movement portion of `Game::tick` (game.rs:480-519): the `self.time`
update (line 486) and the per-entity loop (lines 497-505).  For each live
entity with nonzero velocity, two `start_move_entity` calls: first with the
velocity's Y coordinate zeroed (`at_y(0.) * dt`), then — re-reading the
velocity as the source does — with its X coordinate zeroed (`at_x(0.) * dt`).
The pendulum branch (lines 506-515, absent animations are a no-op) and the
two logging-only diagnostics counters are not modelled (see the header). -/
def Game.tick_motion (g : Game) (dt : ℚ) : Game :=
  let g0 := { g with time := g.time + dt }
  (List.range (Slab.size g0.velocities)).foldl
    (fun g entity =>
      match Slab.read g.velocities entity with
      | none => g
      | some v =>
        if v.is_origin then g
        else
          let g1 := (g.start_move_entity entity ((v.at_y 0).scale dt)).1
          let v1 := (Slab.read g1.velocities entity).getD ⟨0, 0⟩
          (g1.start_move_entity entity ((v1.at_x 0).scale dt)).1)
    g0

/-- `Key`: the recognized subset `{W, A, S, D}` of `piston_window::Key`,
every other variant of that enum collapsed into `other`. -/
inductive Key
  | w
  | a
  | s
  | d
  | other (code : Nat)
deriving DecidableEq

/-- `InvalidKeyError` (game.rs:9). -/
structure InvalidKeyError : Type
deriving DecidableEq

/-- `MOVE_VELOCITY` (game.rs:12). -/
def MOVE_VELOCITY : ℚ := 50

/-- Overwrite `velocities[id]`. -/
def Game.setVelocity (g : Game) (id : Nat) (v : Point) : Game :=
  { g with velocities := Slab.write g.velocities id v }

/-- `Game::process_key_press` (game.rs:452-460).  The result is
`some (newState, maybeError)`; the outer `none` models the Rust panic of
`self.velocities[id]` on a dead id (reached only after the key matched). -/
def Game.process_key_press (g : Game) (id : Nat) (key : Key) :
    Option (Game × Option InvalidKeyError) :=
  match key with
  | .w => (Slab.read g.velocities id).map
      (fun v => (g.setVelocity id (v.at_y (-1 * MOVE_VELOCITY)), none))
  | .a => (Slab.read g.velocities id).map
      (fun v => (g.setVelocity id (v.at_x (-1 * MOVE_VELOCITY)), none))
  | .s => (Slab.read g.velocities id).map
      (fun v => (g.setVelocity id (v.at_y (1 * MOVE_VELOCITY)), none))
  | .d => (Slab.read g.velocities id).map
      (fun v => (g.setVelocity id (v.at_x (1 * MOVE_VELOCITY)), none))
  | .other _ => some (g, some ⟨⟩)

/-- `Game::process_key_release` (game.rs:462-470). -/
def Game.process_key_release (g : Game) (id : Nat) (key : Key) :
    Option (Game × Option InvalidKeyError) :=
  match key with
  | .w => (Slab.read g.velocities id).map (fun v => (g.setVelocity id (v.at_y 0), none))
  | .a => (Slab.read g.velocities id).map (fun v => (g.setVelocity id (v.at_x 0), none))
  | .s => (Slab.read g.velocities id).map (fun v => (g.setVelocity id (v.at_y 0), none))
  | .d => (Slab.read g.velocities id).map (fun v => (g.setVelocity id (v.at_x 0), none))
  | .other _ => some (g, some ⟨⟩)

/-- `piston_window::ButtonState`. -/
inductive ButtonState
  | press
  | release
deriving DecidableEq

/-- `piston_window::Input`, restricted to what `push_input` inspects: a
keyboard button event, or anything else (ignored by the `_ => {}` arm). -/
inductive Input
  | keyboard (key : Key) (state : ButtonState)
  | otherInput (code : Nat)
deriving DecidableEq

/-- `ConnectionHandler::push_input` (server.rs:157-176).  The RPC response is
`()`; the `Result` of `process_key_press`/`process_key_release` is discarded
by `let _ =`.  (A Rust panic inside — dead entity id — is modelled as leaving
the state unchanged.) -/
def push_input (g : Game) (entity_id : Nat) (input : Input) : Game × Unit :=
  match input with
  | .keyboard key .press =>
    (match g.process_key_press entity_id key with
     | some (g', _) => (g', ())
     | none => (g, ()))
  | .keyboard key .release =>
    (match g.process_key_release entity_id key with
     | some (g', _) => (g', ())
     | none => (g, ()))
  | .otherInput _ => (g, ())

/-- `ConnectionHandler::poll_game_state` (server.rs:180-191): await the watch
channel's next snapshot (`game_rx.recv()`, modelled as the head of the list
of pending broadcast snapshots) and return it unconditionally; `none` models
a caller still suspended because no snapshot has been broadcast. -/
def poll_game_state (pending : List Game) : Option Game := pending.head?

/-- Transport or response failure of a connection. -/
inductive TransportError
  | broken
deriving DecidableEq

/-- The per-connection handling loop of `Server::run` (server.rs:63-74):
drive the response stream; `handler?.await` propagates the first `Err` out of
the async block immediately, and only when the stream ends normally does
`remove_entity(entity_id)` run.  Each stream item is modelled as
`Except TransportError Unit`. -/
def connection_loop (g : Game) (entity_id : Nat) :
    List (Except TransportError Unit) → Game × Except TransportError Unit
  | [] => (g.remove_entity entity_id, Except.ok ())
  | Except.ok _ :: rest => connection_loop g entity_id rest
  | Except.error e :: _ => (g, Except.error e)

/-- Modelled from the spec (§4.3, the sentence behind claim C4): "move it
first along the pure-Y component of velocity, then along the pure-X component
(two separate `start_move_entity` calls), each scaled by `dt`".  Used only to
compare the spec's stated order against `Game.tick_motion`. -/
def Game.tick_motion_y_first (g : Game) (dt : ℚ) : Game :=
  let g0 := { g with time := g.time + dt }
  (List.range (Slab.size g0.velocities)).foldl
    (fun g entity =>
      match Slab.read g.velocities entity with
      | none => g
      | some v =>
        if v.is_origin then g
        else
          let g1 := (g.start_move_entity entity ⟨0, v.y * dt⟩).1
          (g1.start_move_entity entity ⟨v.x * dt, 0⟩).1)
    g0

/-- The amended order, stated independently of `Game.tick_motion`: for each
live entity with nonzero velocity, two `start_move_entity` calls, first the
pure-X component `⟨v.x * dt, 0⟩` and then the pure-Y component
`⟨0, v.y * dt⟩`. -/
def Game.tick_motion_x_first (g : Game) (dt : ℚ) : Game :=
  let g0 := { g with time := g.time + dt }
  (List.range (Slab.size g0.velocities)).foldl
    (fun g entity =>
      match Slab.read g.velocities entity with
      | none => g
      | some v =>
        if v.is_origin then g
        else
          let g1 := (g.start_move_entity entity ⟨v.x * dt, 0⟩).1
          (g1.start_move_entity entity ⟨0, v.y * dt⟩).1)
    g0

/-! ## Slab lemmas -/

theorem Slab.read_eq_getElem (l : Slab α) (i : Nat) : Slab.read l i = (l[i]?).getD none := by
  simp [Slab.read, List.getD_eq_getElem?_getD]

theorem Slab.read_lt_length {l : Slab α} {i : Nat} {v : α}
    (h : Slab.read l i = some v) : i < l.length := by
  rw [Slab.read_eq_getElem] at h
  by_contra hlen
  rw [List.getElem?_eq_none (by omega)] at h
  simp at h

theorem Slab.holds_lt_length {l : Slab α} {i : Nat} (h : Slab.holds l i) : i < l.length := by
  unfold Slab.holds at h
  cases hr : Slab.read l i with
  | none => rw [hr] at h; simp at h
  | some v => exact Slab.read_lt_length hr

theorem Slab.read_set_self {l : Slab α} {i : Nat} (hi : i < l.length) (v : Option α) :
    Slab.read (l.set i v) i = v := by
  rw [Slab.read_eq_getElem, List.getElem?_set_self (by simpa using hi)]
  rfl

theorem Slab.read_set_ne {l : Slab α} {i j : Nat} (h : i ≠ j) (v : Option α) :
    Slab.read (l.set i v) j = Slab.read l j := by
  rw [Slab.read_eq_getElem, Slab.read_eq_getElem, List.getElem?_set_ne h]

theorem Slab.read_write_self {l : Slab α} {i : Nat} (h : Slab.holds l i) (v : α) :
    Slab.read (Slab.write l i v) i = some v := by
  unfold Slab.write
  rw [if_pos h, Slab.read_set_self (Slab.holds_lt_length h)]

theorem Slab.read_write_ne {l : Slab α} {i j : Nat} (h : i ≠ j) (v : α) :
    Slab.read (Slab.write l i v) j = Slab.read l j := by
  unfold Slab.write
  split
  · exact Slab.read_set_ne h (some v)
  · rfl

theorem Slab.write_not_holds {l : Slab α} {i : Nat} (h : ¬ Slab.holds l i) (v : α) :
    Slab.write l i v = l := by
  unfold Slab.write
  rw [if_neg h]

theorem Slab.isSome_read_write (l : Slab α) (i : Nat) (v : α) (j : Nat) :
    (Slab.read (Slab.write l i v) j).isSome = (Slab.read l j).isSome := by
  by_cases hij : i = j
  · subst hij
    by_cases h : Slab.holds l i
    · rw [Slab.read_write_self h]
      unfold Slab.holds at h
      simp [h]
    · rw [Slab.write_not_holds h]
  · rw [Slab.read_write_ne hij]

theorem Slab.length_write (l : Slab α) (i : Nat) (v : α) :
    (Slab.write l i v).length = l.length := by
  unfold Slab.write
  split <;> simp

theorem Slab.size_set (l : Slab α) (i : Nat) (v w : α) :
    ∀ (_ : Slab.read l i = some w), Slab.size (l.set i (some v)) = Slab.size l := by
  induction l generalizing i with
  | nil => intro h; simp [Slab.read] at h
  | cons a t ih =>
    intro h
    cases i with
    | zero =>
      simp [Slab.read] at h
      simp [List.set, Slab.size, List.filter, h]
    | succ i =>
      simp only [Slab.read, List.getD] at h ih
      simp only [List.set, Slab.size, List.filter]
      cases ha : a.isSome <;> simp only [ha] <;>
        simpa [Slab.size, List.filter] using ih (i := i) h

theorem Slab.size_write (l : Slab α) (i : Nat) (v : α) :
    Slab.size (Slab.write l i v) = Slab.size l := by
  unfold Slab.write
  split
  · rename_i h
    unfold Slab.holds at h
    cases hr : Slab.read l i with
    | none => rw [hr] at h; simp at h
    | some w => exact Slab.size_set l i v w hr
  · rfl

theorem Slab.read_map (f : α → β) (l : Slab α) (i : Nat) :
    Slab.read (l.map (Option.map f)) i = (Slab.read l i).map f := by
  induction l generalizing i with
  | nil => simp [Slab.read]
  | cons a t ih =>
    cases i with
    | zero => simp [Slab.read]
    | succ i => simpa [Slab.read, List.getD] using ih i

theorem Slab.size_map (f : α → β) (l : Slab α) :
    Slab.size (l.map (Option.map f)) = Slab.size l := by
  induction l with
  | nil => rfl
  | cons a t ih =>
    cases a <;> simpa [Slab.size, List.filter] using ih

/-! ## Frame conditions of `move_entity` -/

/-- What a (possibly recursive) `move_entity` call may and may not change:
every component slab except positions and moved-flags is untouched, widths
and heights of all positions are preserved, moved-flags keep their domain and
only ever go from `false` to `true`, and the position of an entity whose
moved-flag ends up `false` is untouched. -/
def FrameRel (g g' : Game) : Prop :=
  g'.square_side_length = g.square_side_length ∧
  g'.bottom_right = g.bottom_right ∧
  g'.time = g.time ∧
  g'.velocities = g.velocities ∧
  g'.animations = g.animations ∧
  g'.moveable = g.moveable ∧
  g'.colors = g.colors ∧
  (∀ i, (Slab.read g'.positions i).map (fun r => (r.width, r.height)) =
        (Slab.read g.positions i).map (fun r => (r.width, r.height))) ∧
  (∀ i, (Slab.read g'.moved_this_action i).isSome =
        (Slab.read g.moved_this_action i).isSome) ∧
  (∀ i, Slab.read g'.moved_this_action i = some false →
        Slab.read g.moved_this_action i = some false) ∧
  (∀ i, Slab.read g'.moved_this_action i = some false →
        Slab.read g'.positions i = Slab.read g.positions i)

theorem frameRel_refl (g : Game) : FrameRel g g :=
  ⟨rfl, rfl, rfl, rfl, rfl, rfl, rfl, fun _ => rfl, fun _ => rfl,
    fun _ h => h, fun _ _ => rfl⟩

theorem frameRel_trans {g1 g2 g3 : Game} (h12 : FrameRel g1 g2) (h23 : FrameRel g2 g3) :
    FrameRel g1 g3 := by
  obtain ⟨a1, b1, c1, d1, e1, f1, i1, p1, m1, f21, pos1⟩ := h12
  obtain ⟨a2, b2, c2, d2, e2, f2, i2, p2, m2, f22, pos2⟩ := h23
  refine ⟨a2.trans a1, b2.trans b1, c2.trans c1, d2.trans d1, e2.trans e1,
    f2.trans f1, i2.trans i1, fun i => (p2 i).trans (p1 i),
    fun i => (m2 i).trans (m1 i), fun i h => f21 i (f22 i h), ?_⟩
  intro i h
  exact (pos2 i h).trans (pos1 i (f22 i h))

theorem read_write_true_ne_some_false (l : Slab Bool) (e : Nat) :
    Slab.read (Slab.write l e true) e ≠ some false := by
  by_cases h : Slab.holds l e
  · rw [Slab.read_write_self h]
    simp
  · rw [Slab.write_not_holds h]
    unfold Slab.holds at h
    cases hr : Slab.read l e with
    | none => simp
    | some b => rw [hr] at h; simp at h

theorem frame_setMoved (g : Game) (e : Nat) : FrameRel g (Game.setMoved g e) := by
  refine ⟨rfl, rfl, rfl, rfl, rfl, rfl, rfl, fun i => rfl, ?_, ?_, fun i _ => rfl⟩
  · intro i
    exact Slab.isSome_read_write g.moved_this_action e true i
  · intro i h
    simp only [Game.setMoved] at h
    by_cases hie : e = i
    · subst hie
      exact absurd h (read_write_true_ne_some_false g.moved_this_action e)
    · rwa [Slab.read_write_ne hie] at h

theorem frame_setPos {g : Game} {e : Nat} {r r0 : Rectangle}
    (hr : Slab.read g.positions e = some r0)
    (hw : r.width = r0.width) (hh : r.height = r0.height)
    (hmoved : Slab.read g.moved_this_action e ≠ some false) :
    FrameRel g (Game.setPos g e r) := by
  have hholds : Slab.holds g.positions e := by
    unfold Slab.holds
    rw [hr]
    rfl
  refine ⟨rfl, rfl, rfl, rfl, rfl, rfl, rfl, ?_, fun i => rfl, fun i h => h, ?_⟩
  · intro i
    by_cases hie : e = i
    · subst hie
      show (Slab.read (Slab.write g.positions e r) e).map _ = _
      rw [Slab.read_write_self hholds, hr]
      simp [hw, hh]
    · show (Slab.read (Slab.write g.positions e r) i).map _ = _
      rw [Slab.read_write_ne hie]
  · intro i h
    by_cases hie : e = i
    · subst hie
      exact absurd h hmoved
    · show Slab.read (Slab.write g.positions e r) i = _
      rw [Slab.read_write_ne hie]

/-- If one step of a fold respects a reflexive transitive relation, the
whole fold does. -/
theorem foldl_rel {β γ : Type} {R : γ → γ → Prop}
    (hrefl : ∀ x, R x x)
    (htrans : ∀ {x y z}, R x y → R y z → R x z)
    (f : γ → β → γ) (hstep : ∀ acc x, R acc (f acc x)) :
    ∀ (l : List β) (a : γ), R a (l.foldl f a)
  | [], a => hrefl a
  | b :: t, a => htrans (hstep a b) (foldl_rel hrefl htrans f hstep t (f a b))

theorem FrameRel.square {g g' : Game} (h : FrameRel g g') :
    g'.square_side_length = g.square_side_length := h.1

theorem FrameRel.bottomRight {g g' : Game} (h : FrameRel g g') :
    g'.bottom_right = g.bottom_right := h.2.1

theorem FrameRel.timeEq {g g' : Game} (h : FrameRel g g') : g'.time = g.time := h.2.2.1

theorem FrameRel.velocitiesEq {g g' : Game} (h : FrameRel g g') :
    g'.velocities = g.velocities := h.2.2.2.1

theorem FrameRel.animationsEq {g g' : Game} (h : FrameRel g g') :
    g'.animations = g.animations := h.2.2.2.2.1

theorem FrameRel.moveableEq {g g' : Game} (h : FrameRel g g') :
    g'.moveable = g.moveable := h.2.2.2.2.2.1

theorem FrameRel.colorsEq {g g' : Game} (h : FrameRel g g') :
    g'.colors = g.colors := h.2.2.2.2.2.2.1

theorem FrameRel.posSizes {g g' : Game} (h : FrameRel g g') :
    ∀ i, (Slab.read g'.positions i).map (fun r => (r.width, r.height)) =
         (Slab.read g.positions i).map (fun r => (r.width, r.height)) := h.2.2.2.2.2.2.2.1

theorem FrameRel.movedDomain {g g' : Game} (h : FrameRel g g') :
    ∀ i, (Slab.read g'.moved_this_action i).isSome =
         (Slab.read g.moved_this_action i).isSome := h.2.2.2.2.2.2.2.2.1

theorem FrameRel.movedMono {g g' : Game} (h : FrameRel g g') :
    ∀ i, Slab.read g'.moved_this_action i = some false →
         Slab.read g.moved_this_action i = some false := h.2.2.2.2.2.2.2.2.2.1

theorem FrameRel.posOfUnmoved {g g' : Game} (h : FrameRel g g') :
    ∀ i, Slab.read g'.moved_this_action i = some false →
         Slab.read g'.positions i = Slab.read g.positions i := h.2.2.2.2.2.2.2.2.2.2

theorem moveLoopStep_rel {rec : Game → Nat → Point → Game × Point}
    (hrec : ∀ g i dd, FrameRel g (rec g i dd).1)
    (segN entity : Nat) (delta : Point) (segs : List Rectangle)
    (acc : Game × Point) (id : Nat) :
    FrameRel acc.1 (moveLoopStep rec segN entity delta segs acc id).1 := by
  obtain ⟨g, ov⟩ := acc
  show FrameRel g (moveLoopStep rec segN entity delta segs (g, ov) id).1
  simp only [moveLoopStep]
  split
  · exact frameRel_refl g
  · split
    · exact frameRel_refl g
    · split
      · exact frameRel_refl g
      · split
        · exact frameRel_refl g
        · split
          · exact hrec g id _
          · exact frameRel_refl g

theorem moveRetract_frame (gw gh : ℚ) (entity : Nat) (delta : Point) (p : Game × Point)
    (hmoved : Slab.read p.1.moved_this_action entity ≠ some false) :
    FrameRel p.1 (moveRetract gw gh entity delta p).1 := by
  unfold moveRetract
  split
  · cases hre : Slab.read p.1.positions entity with
    | none => exact frameRel_refl p.1
    | some r3 => exact frame_setPos hre rfl rfl hmoved
  · exact frameRel_refl p.1

theorem move_entity_fuel_frame (n : Nat) :
    ∀ (g : Game) (e : Nat) (d : Point), FrameRel g (Game.move_entity_fuel n g e d).1 := by
  induction n with
  | zero => intro g e d; exact frameRel_refl g
  | succ n ih =>
    intro g e d
    simp only [Game.move_entity_fuel]
    cases hre : Slab.read (Game.setMoved g e).positions e with
    | none => exact frame_setMoved g e
    | some r =>
      have h01 : FrameRel g (Game.setMoved g e) := frame_setMoved g e
      have hmoved_ne : Slab.read (Game.setMoved g e).moved_this_action e ≠ some false :=
        read_write_true_ne_some_false g.moved_this_action e
      have h12 : FrameRel (Game.setMoved g e)
          (Game.setPos (Game.setMoved g e) e (r.move_ d (Game.width g) (Game.height g))) :=
        frame_setPos hre rfl rfl hmoved_ne
      have hfold :
          FrameRel
            (Game.setPos (Game.setMoved g e) e (r.move_ d (Game.width g) (Game.height g)))
            ((List.range (Slab.size (Game.setPos (Game.setMoved g e) e
                (r.move_ d (Game.width g) (Game.height g))).positions)).foldl
              (moveLoopStep (Game.move_entity_fuel n) (n + 1) e d
                (segsList (n + 1) (r.move_ d (Game.width g) (Game.height g))
                  (Game.setPos (Game.setMoved g e) e
                    (r.move_ d (Game.width g) (Game.height g))).bottom_right))
              (Game.setPos (Game.setMoved g e) e
                (r.move_ d (Game.width g) (Game.height g)), ⟨0, 0⟩)).1 := by
        exact foldl_rel (R := fun p q : Game × Point => FrameRel p.1 q.1)
          (fun x => frameRel_refl x.1) (fun hxy hyz => frameRel_trans hxy hyz)
          _ (fun acc x => moveLoopStep_rel (fun gg i dd => ih gg i dd) _ _ _ _ acc x) _ _
      have h03 : FrameRel g _ := frameRel_trans h01 (frameRel_trans h12 hfold)
      have hmoved3 :
          Slab.read ((List.range (Slab.size (Game.setPos (Game.setMoved g e) e
                (r.move_ d (Game.width g) (Game.height g))).positions)).foldl
              (moveLoopStep (Game.move_entity_fuel n) (n + 1) e d
                (segsList (n + 1) (r.move_ d (Game.width g) (Game.height g))
                  (Game.setPos (Game.setMoved g e) e
                    (r.move_ d (Game.width g) (Game.height g))).bottom_right))
              (Game.setPos (Game.setMoved g e) e
                (r.move_ d (Game.width g) (Game.height g)), ⟨0, 0⟩)).1.moved_this_action e
            ≠ some false := by
        intro hcontra
        exact hmoved_ne (FrameRel.movedMono (frameRel_trans h12 hfold) e hcontra)
      exact frameRel_trans h03 (moveRetract_frame _ _ e d _ hmoved3)

/-! ## Arithmetic of the truncated float remainder -/

theorem fmod_mem {a b : ℚ} (hb : 0 < b) :
    -b < fmod a b ∧ fmod a b < b ∧ (0 ≤ a → 0 ≤ fmod a b) := by
  have hbne : b ≠ 0 := ne_of_gt hb
  have key : b * (a / b) = a := by
    rw [mul_comm]
    exact div_mul_cancel₀ a hbne
  unfold fmod rtrunc
  split
  · rename_i ht
    have h1 : ((⌊a / b⌋ : ℤ) : ℚ) ≤ a / b := Int.floor_le _
    have h2 : a / b < ⌊a / b⌋ + 1 := Int.lt_floor_add_one _
    have e1 : 0 ≤ b * (a / b - ⌊a / b⌋) := mul_nonneg hb.le (by linarith)
    have e2 : b * (a / b - ⌊a / b⌋) < b * 1 := by
      apply mul_lt_mul_of_pos_left _ hb
      linarith
    have e3 : b * (a / b - ⌊a / b⌋) = a - b * ⌊a / b⌋ := by
      rw [mul_sub, key]
    refine ⟨by linarith, by linarith, fun _ => by linarith⟩
  · rename_i ht
    have h1 : a / b ≤ ((⌈a / b⌉ : ℤ) : ℚ) := Int.le_ceil _
    have h2 : ((⌈a / b⌉ : ℤ) : ℚ) < a / b + 1 := Int.ceil_lt_add_one _
    have e1 : b * (a / b - ⌈a / b⌉) ≤ 0 :=
      mul_nonpos_iff.mpr (Or.inl ⟨hb.le, by linarith⟩)
    have e2 : b * (-1) < b * (a / b - ⌈a / b⌉) :=
      mul_lt_mul_of_pos_left (by linarith) hb
    have e3 : b * (a / b - ⌈a / b⌉) = a - b * ⌈a / b⌉ := by
      rw [mul_sub, key]
    refine ⟨by linarith, by linarith, fun ha => ?_⟩
    exact absurd (div_nonneg ha hb.le) ht

theorem fmod_self {b : ℚ} (hb : 0 < b) : fmod b b = 0 := by
  unfold fmod rtrunc
  rw [div_self (ne_of_gt hb)]
  rw [if_pos (by norm_num : (0:ℚ) ≤ 1)]
  simp

theorem fmod_zero_left (b : ℚ) : fmod 0 b = 0 := by
  unfold fmod rtrunc
  rw [zero_div]
  simp

theorem fmod_add_left_self {x b : ℚ} (hb : 0 < b) (hx0 : 0 ≤ x) (hxb : x < b) :
    fmod (b + x) b = x := by
  have hbne : b ≠ 0 := ne_of_gt hb
  have hdiv : (b + x) / b = x / b + 1 := by
    field_simp
    ring
  have hx01 : ⌊x / b⌋ = 0 := by
    rw [Int.floor_eq_zero_iff]
    constructor
    · exact div_nonneg hx0 hb.le
    · rw [div_lt_one hb]
      exact hxb
  unfold fmod rtrunc
  rw [hdiv, if_pos (by positivity : (0:ℚ) ≤ x / b + 1), Int.floor_add_one, hx01]
  push_cast
  ring

theorem Point.sub_zero_point (d : Point) : d - (⟨0, 0⟩ : Point) = d := by
  cases d
  simp [Point.sub_def]

/-- A fold whose step fixes the accumulator is the identity. -/
theorem foldl_fixed {β γ : Type} (f : γ → β → γ) (a : γ)
    (h : ∀ x, f a x = a) : ∀ l : List β, l.foldl f a = a
  | [] => rfl
  | b :: t => by rw [List.foldl_cons, h b]; exact foldl_fixed f a h t

/-! ## `move_entity` in a world with no other live entity -/

theorem move_entity_fuel_singleton (n : Nat) (g : Game) (e : Nat) (d : Point) (r : Rectangle)
    (hr : Slab.read g.positions e = some r)
    (ho : ∀ j, j ≠ e → Slab.read g.positions j = none) :
    Game.move_entity_fuel (n + 1) g e d =
      (Game.setPos (Game.setMoved g e) e (r.move_ d (Game.width g) (Game.height g)), d) := by
  have hre : Slab.read (Game.setMoved g e).positions e = some r := hr
  simp only [Game.move_entity_fuel]
  cases hre' : Slab.read (Game.setMoved g e).positions e with
  | none => exact absurd (hre.symm.trans hre') (by simp)
  | some r' =>
    have hrr : r = r' := Option.some.inj (hre.symm.trans hre')
    subst hrr
    dsimp only
    set M := Game.setPos (Game.setMoved g e) e (r.move_ d (Game.width g) (Game.height g))
      with hM
    have hMe : Slab.read M.positions e = some (r.move_ d (Game.width g) (Game.height g)) := by
      rw [hM]
      show Slab.read (Slab.write (Game.setMoved g e).positions e _) e = _
      rw [Slab.read_write_self]
      unfold Slab.holds
      rw [hre]
      rfl
    have hMo : ∀ j, j ≠ e → Slab.read M.positions j = none := by
      intro j hj
      rw [hM]
      show Slab.read (Slab.write (Game.setMoved g e).positions e _) j = none
      rw [Slab.read_write_ne (fun h => hj h.symm)]
      exact ho j hj
    have hstep : ∀ x, moveLoopStep (Game.move_entity_fuel n) (n + 1) e d
        (segsList (n + 1) (r.move_ d (Game.width g) (Game.height g)) M.bottom_right)
        (M, ⟨0, 0⟩) x = (M, ⟨0, 0⟩) := by
      intro idx
      simp only [moveLoopStep]
      by_cases hid : idx = e
      · subst hid
        have hhold : Slab.holds M.positions idx := by
          unfold Slab.holds
          rw [hMe]
          rfl
        rw [if_neg (not_not.mpr hhold), if_pos rfl]
      · have hnot : ¬ Slab.holds M.positions idx := by
          unfold Slab.holds
          rw [hMo idx hid]
          simp
        rw [if_pos hnot]
    rw [foldl_fixed _ _ hstep]
    unfold moveRetract
    rw [if_neg (by simp)]
    rw [Point.sub_zero_point]

theorem move_entity_singleton (g : Game) (e : Nat) (d : Point) (r : Rectangle)
    (hr : Slab.read g.positions e = some r)
    (ho : ∀ j, j ≠ e → Slab.read g.positions j = none) :
    Game.move_entity g e d =
      (Game.setPos (Game.setMoved g e) e (r.move_ d (Game.width g) (Game.height g)), d) :=
  move_entity_fuel_singleton (g.positions.length + 4) g e d r hr ho

theorem move_coord_mem {x d W : ℚ} (hW : 0 < W) (hx0 : 0 ≤ x) (hxW : x < W) :
    0 ≤ fmod (W + x + fmod d W) W ∧ fmod (W + x + fmod d W) W < W := by
  obtain ⟨hlo, _, _⟩ := fmod_mem (a := d) hW
  obtain ⟨_, hhi2, hnn2⟩ := fmod_mem (a := W + x + fmod d W) hW
  exact ⟨hnn2 (by linarith), hhi2⟩

theorem move_coord_zero {x W : ℚ} (hW : 0 < W) (hx0 : 0 ≤ x) (hxW : x < W) {d : ℚ}
    (hd : fmod d W = 0) : fmod (W + x + fmod d W) W = x := by
  rw [hd, add_zero]
  exact fmod_add_left_self hW hx0 hxW

/-- **C6** (`algebraic_relational`, confirmed): for a rectangle with top-left
in `[0,W) × [0,H)` and positive world bounds, `Rectangle::move_` always lands
the top-left back in `[0,W) × [0,H)` — for arbitrary deltas, negative
components included — and moving by exactly `(W,0)` or `(0,H)` equals moving
by `(0,0)` (both leave the rectangle unchanged); consequently, in an
otherwise-empty world, `move_entity` by `(W,0)` or `(0,H)` leaves the
position slab equal to `move_entity` by `(0,0)`. -/
theorem C6_wrap_correctness (r : Rectangle) (d : Point) (W H : ℚ) (g : Game) (e : Nat)
    (hW : 0 < W) (hH : 0 < H)
    (hx0 : 0 ≤ r.top_left.x) (hxW : r.top_left.x < W)
    (hy0 : 0 ≤ r.top_left.y) (hyH : r.top_left.y < H)
    (hg : g.bottom_right = ⟨W, H⟩)
    (hr : Slab.read g.positions e = some r)
    (ho : ∀ j, j ≠ e → Slab.read g.positions j = none) :
    (0 ≤ (r.move_ d W H).top_left.x ∧ (r.move_ d W H).top_left.x < W ∧
     0 ≤ (r.move_ d W H).top_left.y ∧ (r.move_ d W H).top_left.y < H) ∧
    r.move_ ⟨W, 0⟩ W H = r.move_ ⟨0, 0⟩ W H ∧
    r.move_ ⟨0, H⟩ W H = r.move_ ⟨0, 0⟩ W H ∧
    r.move_ ⟨0, 0⟩ W H = r ∧
    (Game.move_entity g e ⟨W, 0⟩).1.positions =
      (Game.move_entity g e ⟨0, 0⟩).1.positions ∧
    (Game.move_entity g e ⟨0, H⟩).1.positions =
      (Game.move_entity g e ⟨0, 0⟩).1.positions := by
  obtain ⟨⟨x, y⟩, w, h⟩ := r
  simp only [Rectangle.move_] at *
  have hWx : fmod ((⟨W, 0⟩ : Point)).x W = 0 := fmod_self hW
  have hzx : fmod ((⟨0, 0⟩ : Point)).x W = 0 := fmod_zero_left W
  have hHy : fmod ((⟨0, H⟩ : Point)).y H = 0 := fmod_self hH
  have hzy : fmod ((⟨0, 0⟩ : Point)).y H = 0 := fmod_zero_left H
  have hid : ∀ dd : Point, fmod dd.x W = 0 → fmod dd.y H = 0 →
      Rectangle.mk ⟨fmod (W + x + fmod dd.x W) W, fmod (H + y + fmod dd.y H) H⟩ w h =
      Rectangle.mk ⟨x, y⟩ w h := by
    intro dd hdx hdy
    rw [move_coord_zero hW hx0 hxW hdx, move_coord_zero hH hy0 hyH hdy]
  have hWeq : Rectangle.mk
      ⟨fmod (W + x + fmod ((⟨W, 0⟩ : Point)).x W) W,
       fmod (H + y + fmod ((⟨W, 0⟩ : Point)).y H) H⟩ w h = Rectangle.mk ⟨x, y⟩ w h :=
    hid ⟨W, 0⟩ hWx (fmod_zero_left H)
  have hHeq : Rectangle.mk
      ⟨fmod (W + x + fmod ((⟨0, H⟩ : Point)).x W) W,
       fmod (H + y + fmod ((⟨0, H⟩ : Point)).y H) H⟩ w h = Rectangle.mk ⟨x, y⟩ w h :=
    hid ⟨0, H⟩ (fmod_zero_left W) hHy
  have hZeq : Rectangle.mk
      ⟨fmod (W + x + fmod ((⟨0, 0⟩ : Point)).x W) W,
       fmod (H + y + fmod ((⟨0, 0⟩ : Point)).y H) H⟩ w h = Rectangle.mk ⟨x, y⟩ w h :=
    hid ⟨0, 0⟩ hzx hzy
  refine ⟨⟨(move_coord_mem hW hx0 hxW).1, (move_coord_mem hW hx0 hxW).2,
          (move_coord_mem hH hy0 hyH).1, (move_coord_mem hH hy0 hyH).2⟩,
         hWeq.trans hZeq.symm, hHeq.trans hZeq.symm, hZeq, ?_, ?_⟩
  · rw [move_entity_singleton g e ⟨W, 0⟩ _ hr ho, move_entity_singleton g e ⟨0, 0⟩ _ hr ho]
    show Slab.write _ e _ = Slab.write _ e _
    have hWg : Game.width g = W := by rw [Game.width, hg]
    have hHg : Game.height g = H := by rw [Game.height, hg]
    rw [hWg, hHg]
    simp only [Rectangle.move_]
    rw [hWeq.trans hZeq.symm]
  · rw [move_entity_singleton g e ⟨0, H⟩ _ hr ho, move_entity_singleton g e ⟨0, 0⟩ _ hr ho]
    show Slab.write _ e _ = Slab.write _ e _
    have hWg : Game.width g = W := by rw [Game.width, hg]
    have hHg : Game.height g = H := by rw [Game.height, hg]
    rw [hWg, hHg]
    simp only [Rectangle.move_]
    rw [hHeq.trans hZeq.symm]

/-- **C7** (`functional_correctness`, confirmed): when no other live entity
exists, `move_entity` returns exactly `delta` and translates the mover's
position by `delta` wrapped modulo the world bounds, with no retraction. -/
theorem C7_push_conservation (g : Game) (e : Nat) (d : Point) (r : Rectangle)
    (hr : Slab.read g.positions e = some r)
    (ho : ∀ j, j ≠ e → Slab.read g.positions j = none) :
    (Game.move_entity g e d).2 = d ∧
    Slab.read (Game.move_entity g e d).1.positions e =
      some (r.move_ d (Game.width g) (Game.height g)) := by
  rw [move_entity_singleton g e d r hr ho]
  refine ⟨rfl, ?_⟩
  show Slab.read (Slab.write (Game.setMoved g e).positions e _) e = _
  rw [Slab.read_write_self]
  unfold Slab.holds
  rw [show Slab.read (Game.setMoved g e).positions e = some r from hr]
  rfl

/-- A black color for the concrete game states below. -/
def cBlack : Color := ⟨0, 0, 0, 0⟩

/-- A single 10×10 moveable square at `(3,4)` in a 100×100 world. -/
def gSingle : Game :=
  { square_side_length := 10
    bottom_right := ⟨100, 100⟩
    positions := [some ⟨⟨3, 4⟩, 10, 10⟩]
    velocities := [some ⟨0, 0⟩]
    animations := [some none]
    moveable := [some true]
    moved_this_action := [some false]
    colors := [some cBlack]
    time := 0 }

theorem gSingle_no_other : ∀ j, j ≠ 0 → Slab.read gSingle.positions j = none := by
  intro j hj
  cases j with
  | zero => exact absurd rfl hj
  | succ n => rfl

/-- Witness for C7 at the concrete singleton game. -/
theorem C7_push_conservation_witness :
    (Slab.read gSingle.positions 0 = some ⟨⟨3, 4⟩, 10, 10⟩ ∧
     (∀ j, j ≠ 0 → Slab.read gSingle.positions j = none)) ∧
    ((Game.move_entity gSingle 0 ⟨7, -9⟩).2 = ⟨7, -9⟩ ∧
     Slab.read (Game.move_entity gSingle 0 ⟨7, -9⟩).1.positions 0 =
       some ((Rectangle.mk ⟨3, 4⟩ 10 10).move_ ⟨7, -9⟩
         (Game.width gSingle) (Game.height gSingle))) :=
  ⟨⟨rfl, gSingle_no_other⟩,
   C7_push_conservation gSingle 0 ⟨7, -9⟩ ⟨⟨3, 4⟩, 10, 10⟩ rfl gSingle_no_other⟩

/-- Witness for C6 at the concrete singleton game. -/
theorem C6_wrap_correctness_witness :
    ((0:ℚ) < 100 ∧ (0:ℚ) < 100 ∧
     (0 ≤ (Rectangle.mk ⟨3, 4⟩ 10 10).top_left.x ∧
      (Rectangle.mk ⟨3, 4⟩ 10 10).top_left.x < 100) ∧
     gSingle.bottom_right = (⟨100, 100⟩ : Point)) ∧
    (((Rectangle.mk ⟨3, 4⟩ 10 10).move_ ⟨250, -370⟩ 100 100).top_left.x < 100 ∧
     (Rectangle.mk ⟨3, 4⟩ 10 10).move_ ⟨100, 0⟩ 100 100 =
       (Rectangle.mk ⟨3, 4⟩ 10 10).move_ ⟨0, 0⟩ 100 100 ∧
     (Rectangle.mk ⟨3, 4⟩ 10 10).move_ ⟨0, 100⟩ 100 100 =
       (Rectangle.mk ⟨3, 4⟩ 10 10).move_ ⟨0, 0⟩ 100 100 ∧
     (Game.move_entity gSingle 0 ⟨100, 0⟩).1.positions =
       (Game.move_entity gSingle 0 ⟨0, 0⟩).1.positions) := by
  have h := C6_wrap_correctness ⟨⟨3, 4⟩, 10, 10⟩ ⟨250, -370⟩ 100 100 gSingle 0
    (by norm_num) (by norm_num) (by norm_num) (by norm_num) (by norm_num) (by norm_num)
    rfl rfl gSingle_no_other
  exact ⟨⟨by norm_num, by norm_num, ⟨by norm_num, by norm_num⟩, rfl⟩,
    h.1.2.1, h.2.1, h.2.2.1, h.2.2.2.2.1⟩

/-! ## Concrete game states for the remaining claims -/

/-- An empty game with the world bounds and square side of
`Server::run_game` (server.rs:84: world `(10000, 500)`, side `50`). -/
def gEmptyWorld : Game :=
  { square_side_length := 50
    bottom_right := ⟨10000, 500⟩
    positions := []
    velocities := []
    animations := []
    moveable := []
    moved_this_action := []
    colors := []
    time := 0 }

/-- After one player connects: one player square at the origin. -/
def gPlayers1 : Game := (gEmptyWorld.insert_new_player_square cBlack).1

/-- After a second player connects: two coincident player squares at the
origin (`insert_new_player_square` always spawns at `Point::default()`). -/
def gPlayers2 : Game := (gPlayers1.insert_new_player_square cBlack).1

/-- The spec's concrete scenario for claim C2: world 100×100, side 10,
moveable A at `(0,0)`, immoveable B at `(5,5)`. -/
def gC2 : Game :=
  { square_side_length := 10
    bottom_right := ⟨100, 100⟩
    positions := [some ⟨⟨0, 0⟩, 10, 10⟩, some ⟨⟨5, 5⟩, 10, 10⟩]
    velocities := [some ⟨0, 0⟩, some ⟨0, 0⟩]
    animations := [some none, some none]
    moveable := [some true, some false]
    moved_this_action := [some false, some false]
    colors := [some cBlack, some cBlack]
    time := 0 }

/-- A corner scenario where the per-tick axis order is observable: moveable A
at `(0,0)` with velocity `(10,10)`, immoveable B at `(10,15)`, world
100×100. -/
def gC4 : Game :=
  { square_side_length := 10
    bottom_right := ⟨100, 100⟩
    positions := [some ⟨⟨0, 0⟩, 10, 10⟩, some ⟨⟨10, 15⟩, 10, 10⟩]
    velocities := [some ⟨10, 10⟩, some ⟨0, 0⟩]
    animations := [some none, some none]
    moveable := [some true, some false]
    moved_this_action := [some false, some false]
    colors := [some cBlack, some cBlack]
    time := 0 }

/-! ## C1 -/

/-- **C1** (`invariants`, code_bug): the no-overlap-at-rest invariant fails
on the code.  With the `run_game` world, two connecting players both spawn at
the origin (`insert_new_player_square` places every player square at
`Point::default()`): after a tick with zero velocities (which moves nothing —
the state is settled, and even an explicit zero-delta `start_move_entity`
moves nothing), the two live entities are both moveable (so the
static-obstacle exception does not apply), their wrap segmentation is the
single rectangle `(0,0)–(50,50)` each, and these rectangles overlap with
positive width and height (area 2500). -/
theorem C1_no_overlap_invariant_fails_at_spawn :
    (gPlayers2.tick_motion (1 / 200)).positions = gPlayers2.positions ∧
    (gPlayers2.start_move_entity 0 ⟨0, 0⟩).1.positions = gPlayers2.positions ∧
    (gPlayers2.start_move_entity 1 ⟨0, 0⟩).1.positions = gPlayers2.positions ∧
    Slab.read gPlayers2.positions 0 = some ⟨⟨0, 0⟩, 50, 50⟩ ∧
    Slab.read gPlayers2.positions 1 = some ⟨⟨0, 0⟩, 50, 50⟩ ∧
    Slab.read gPlayers2.velocities 0 = some ⟨0, 0⟩ ∧
    Slab.read gPlayers2.velocities 1 = some ⟨0, 0⟩ ∧
    Slab.read gPlayers2.moveable 0 = some true ∧
    Slab.read gPlayers2.moveable 1 = some true ∧
    segsList 3 ⟨⟨0, 0⟩, 50, 50⟩ gPlayers2.bottom_right = [⟨⟨0, 0⟩, 50, 50⟩] ∧
    Rectangle.overlap ⟨⟨0, 0⟩, 50, 50⟩ ⟨⟨0, 0⟩, 50, 50⟩ = some ⟨⟨0, 0⟩, 50, 50⟩ ∧
    ((0:ℚ) < 50 ∧ (0:ℚ) < 50) := by
  decide

/-! ## C2 -/

/-- Counterexample to **C2**: in the spec's scenario A and B overlap already
at initialization; `move_entity(A, (6,6))` retracts A all the way back to
`(0,0)`, where A's rectangle still overlaps B's with positive area (5×5) —
the claim's "does not overlap" conclusion is false at this input. -/
theorem C2_counterexample :
    Slab.read (gC2.move_entity 0 ⟨6, 6⟩).1.positions 0 = some ⟨⟨0, 0⟩, 10, 10⟩ ∧
    Rectangle.overlap ⟨⟨0, 0⟩, 10, 10⟩ ⟨⟨5, 5⟩, 10, 10⟩ = some ⟨⟨5, 5⟩, 5, 5⟩ ∧
    ((0:ℚ) < 5 ∧ (0:ℚ) < 5) := by
  decide

/-- **C2** (`functional_correctness`, corrected): in the spec's scenario the
two squares already overlap at initialization (A spans `(0,0)–(10,10)`, B
`(5,5)–(15,15)`), so the resolver measures overlap `(9,9)` after the
tentative move to `(6,6)`, retracts by `min((9,9),(6,6)) = (6,6)` back to
`(0,0)`, and returns `appliedDelta = (6,6) - (9,9) = (-3,-3)` — strictly less
than `(6,6)` in both axes, with A's final rectangle still overlapping B's
pre-existing rectangle. -/
theorem C2_concrete_scenario :
    (gC2.move_entity 0 ⟨6, 6⟩).2 = ⟨-3, -3⟩ ∧
    Slab.read (gC2.move_entity 0 ⟨6, 6⟩).1.positions 0 = some ⟨⟨0, 0⟩, 10, 10⟩ ∧
    Slab.read (gC2.move_entity 0 ⟨6, 6⟩).1.positions 1 = some ⟨⟨5, 5⟩, 10, 10⟩ ∧
    Rectangle.overlap ⟨⟨0, 0⟩, 10, 10⟩ ⟨⟨5, 5⟩, 10, 10⟩ = some ⟨⟨5, 5⟩, 5, 5⟩ ∧
    ((-3:ℚ) < 6 ∧ (-3:ℚ) < 6) := by
  decide

/-! ## C5 -/

/-- Counterexample to **C5**: `poll_game_state` returns the next broadcast
snapshot unconditionally.  If the pending snapshot predates this connection's
entity (here: the empty world, while the entity exists only in the later
snapshot), the returned state does not contain the caller's entity id — there
is no retry. -/
theorem C5_counterexample :
    poll_game_state [gEmptyWorld, gPlayers1] = some gEmptyWorld ∧
    ¬ Slab.holds gEmptyWorld.positions 0 ∧
    Slab.holds gPlayers1.positions 0 := by
  decide

/-- **C5** (`functional_correctness`, corrected): `poll_game_state` simply
returns the next snapshot received from the watch channel, whatever it
contains; it performs no check for the caller's entity and never retries. -/
theorem C5_poll_returns_next_snapshot (first : Game) (rest : List Game) :
    poll_game_state (first :: rest) = some first := rfl

/-! ## C8 -/

/-- Counterexample to **C8**: for a key outside `{W,A,S,D}` the game layer
does return `InvalidKeyError` and leaves the state unchanged, but the
server's `push_input` discards that error (`let _ = ...`) and responds `()`,
exactly as it does for an input it ignores altogether — the rejection is not
reported to the caller of the input operation. -/
theorem C8_counterexample :
    Game.process_key_press gSingle 0 (Key.other 7) = some (gSingle, some ⟨⟩) ∧
    Game.process_key_release gSingle 0 (Key.other 7) = some (gSingle, some ⟨⟩) ∧
    push_input gSingle 0 (Input.keyboard (Key.other 7) ButtonState.press) = (gSingle, ()) ∧
    push_input gSingle 0 (Input.otherInput 0) = (gSingle, ()) := by
  decide

/-- **C8** (`error_handling`, corrected): for every game state, entity id and
unrecognized key, `process_key_press` and `process_key_release` return the
typed rejection `InvalidKeyError` before touching any component (the state in
the result is the input state); the server's `push_input`, however, discards
the error and responds plain `()` to the RPC caller. -/
theorem C8_invalid_key (g : Game) (id code : Nat) :
    Game.process_key_press g id (Key.other code) = some (g, some ⟨⟩) ∧
    Game.process_key_release g id (Key.other code) = some (g, some ⟨⟩) ∧
    push_input g id (Input.keyboard (Key.other code) ButtonState.press) = (g, ()) ∧
    push_input g id (Input.keyboard (Key.other code) ButtonState.release) = (g, ()) :=
  ⟨rfl, rfl, rfl, rfl⟩

/-! ## C9 -/

/-- **C9** (`error_handling`, code_bug): cleanup is not scope-guaranteed.  On
the normal exit path (response stream ends) the connection loop removes the
entity, but when a response yields an `Err`, `handler?.await` propagates it
out of the async block before the `remove_entity` line, so the entity is
never removed — it survives into every subsequent snapshot. -/
theorem C9_error_path_skips_remove_entity :
    connection_loop gPlayers1 0 [Except.error TransportError.broken] =
      (gPlayers1, Except.error TransportError.broken) ∧
    Slab.holds gPlayers1.positions 0 ∧
    Slab.read (connection_loop gPlayers1 0 []).1.positions 0 = none ∧
    Slab.read (connection_loop gPlayers1 0
      [Except.error TransportError.broken]).1.positions 0 = some ⟨⟨0, 0⟩, 50, 50⟩ := by
  refine ⟨rfl, by decide, by decide, by decide⟩

/-! ## C4 -/

theorem start_move_velocities (g : Game) (e : Nat) (d : Point) :
    (Game.start_move_entity g e d).1.velocities = g.velocities := by
  show (Game.move_entity_fuel ((Game.clearMoved g).positions.length + 5)
    (Game.clearMoved g) e d).1.velocities = g.velocities
  rw [FrameRel.velocitiesEq (move_entity_fuel_frame _ _ e d)]
  rfl

/-- Counterexample to **C4**: in the corner scenario `gC4` with `dt = 1`,
`tick` ends with A at `(10,5)` (X component applied first, then the Y move is
partially retracted by B), while the spec's stated order — pure-Y component
first, then pure-X — would end with A at `(0,10)` (the X move is fully
retracted).  The tick loop therefore does not move entities Y-first. -/
theorem C4_counterexample :
    Slab.read (gC4.tick_motion 1).positions 0 = some ⟨⟨10, 5⟩, 10, 10⟩ ∧
    Slab.read (gC4.tick_motion_y_first 1).positions 0 = some ⟨⟨0, 10⟩, 10, 10⟩ ∧
    gC4.tick_motion 1 ≠ gC4.tick_motion_y_first 1 := by
  decide

/-- **C4** (`functional_correctness`, corrected): for every entity with
nonzero velocity processed by `tick`, the motion is two separate
`start_move_entity` calls each scaled by `dt` — but the first moves along the
pure-X component of the velocity (Y zeroed, `at_y(0.) * dt`), and the second
along the pure-Y component (X zeroed, `at_x(0.) * dt`): the loop of
`Game.tick_motion` coincides with the X-component-first reference
`Game.tick_motion_x_first` on every game state and time step. -/
theorem C4_axis_order (g : Game) (dt : ℚ) :
    g.tick_motion dt = g.tick_motion_x_first dt := by
  have hstep :
      (fun (gg : Game) (entity : Nat) =>
        match Slab.read gg.velocities entity with
        | none => gg
        | some v =>
          if v.is_origin then gg
          else
            let g1 := (gg.start_move_entity entity ((v.at_y 0).scale dt)).1
            let v1 := (Slab.read g1.velocities entity).getD ⟨0, 0⟩
            (g1.start_move_entity entity ((v1.at_x 0).scale dt)).1) =
      (fun (gg : Game) (entity : Nat) =>
        match Slab.read gg.velocities entity with
        | none => gg
        | some v =>
          if v.is_origin then gg
          else
            let g1 := (gg.start_move_entity entity ⟨v.x * dt, 0⟩).1
            (g1.start_move_entity entity ⟨0, v.y * dt⟩).1) := by
    funext gg entity
    cases hv : Slab.read gg.velocities entity with
    | none => rfl
    | some v =>
      dsimp only
      by_cases ho : v.is_origin
      · rw [if_pos ho, if_pos ho]
      · rw [if_neg ho, if_neg ho]
        have hd1 : (v.at_y 0).scale dt = (⟨v.x * dt, 0⟩ : Point) := by
          simp [Point.at_y, Point.scale]
        rw [hd1]
        have hv1 : Slab.read
            (gg.start_move_entity entity ⟨v.x * dt, 0⟩).1.velocities entity = some v := by
          rw [start_move_velocities, hv]
        rw [hv1]
        have hd2 : ((v.at_x 0).scale dt : Point) = (⟨0, v.y * dt⟩ : Point) := by
          simp [Point.at_x, Point.scale]
        rw [Option.getD_some, hd2]
  unfold Game.tick_motion Game.tick_motion_x_first
  rw [hstep]

/-! ## C3: the segmentation of a wrapped rectangle -/

/-- Evaluation of the segment recursion when the rectangle overflows both the
right and the bottom world edge: five emissions, with the corner piece
emitted twice (once by the bottom-overflow recursion, once by the
right-overflow recursion). -/
theorem segsList_eval_bb (n : Nat) (x0 y0 w h W H : ℚ)
    (hx0 : 0 ≤ x0) (hxW : x0 < W) (hy0 : 0 ≤ y0) (hyH : y0 < H)
    (hw0 : 0 < w) (hwW : w ≤ W) (hh0 : 0 < h) (hhH : h ≤ H)
    (hbx : W < x0 + w) (hby : H < y0 + h) :
    segsList (n + 3) ⟨⟨x0, y0⟩, w, h⟩ ⟨W, H⟩ =
      [⟨⟨0, 0⟩, x0 + w - W, y0 + h - H⟩,
       ⟨⟨x0, 0⟩, W - x0, y0 + h - H⟩,
       ⟨⟨0, 0⟩, x0 + w - W, y0 + h - H⟩,
       ⟨⟨0, y0⟩, x0 + w - W, H - y0⟩,
       ⟨⟨x0, y0⟩, W - x0, H - y0⟩] := by
  show segsList (n + 2 + 1) _ _ = _
  simp only [segsList, Rectangle.bottom_right, Point.add_def, Point.is_below,
    Point.is_right_of]
  norm_num
  simp only [if_pos (show H < y0 + h by linarith),
    if_pos (show W < x0 + w by linarith),
    if_neg (show ¬ H < y0 + h - H by linarith),
    if_neg (show ¬ W < x0 + w - W by linarith),
    min_eq_right (show W - x0 ≤ w by linarith),
    min_eq_left (show x0 + w - W ≤ W by linarith),
    min_eq_left (show y0 + h - H ≤ H by linarith),
    min_eq_right (show H - y0 ≤ h by linarith),
    List.nil_append, List.append_nil, List.cons_append, List.singleton_append]

/-- Evaluation of the segment recursion when the rectangle fits: one piece. -/
theorem segsList_eval_nn (n : Nat) (x0 y0 w h W H : ℚ)
    (hx0 : 0 ≤ x0) (hxW : x0 < W) (hy0 : 0 ≤ y0) (hyH : y0 < H)
    (hw0 : 0 < w) (hwW : w ≤ W) (hh0 : 0 < h) (hhH : h ≤ H)
    (hbx : x0 + w ≤ W) (hby : y0 + h ≤ H) :
    segsList (n + 3) ⟨⟨x0, y0⟩, w, h⟩ ⟨W, H⟩ = [⟨⟨x0, y0⟩, w, h⟩] := by
  show segsList (n + 2 + 1) _ _ = _
  simp only [segsList, Rectangle.bottom_right, Point.add_def, Point.is_below,
    Point.is_right_of]
  norm_num
  simp only [if_neg (show ¬ H < y0 + h by linarith),
    if_neg (show ¬ W < x0 + w by linarith),
    min_eq_left (show w ≤ W - x0 by linarith),
    min_eq_left (show h ≤ H - y0 by linarith),
    List.nil_append, List.append_nil]

/-- Evaluation with bottom overflow only: wrap piece, then clipped piece. -/
theorem segsList_eval_by (n : Nat) (x0 y0 w h W H : ℚ)
    (hx0 : 0 ≤ x0) (hxW : x0 < W) (hy0 : 0 ≤ y0) (hyH : y0 < H)
    (hw0 : 0 < w) (hwW : w ≤ W) (hh0 : 0 < h) (hhH : h ≤ H)
    (hbx : x0 + w ≤ W) (hby : H < y0 + h) :
    segsList (n + 3) ⟨⟨x0, y0⟩, w, h⟩ ⟨W, H⟩ =
      [⟨⟨x0, 0⟩, w, y0 + h - H⟩, ⟨⟨x0, y0⟩, w, H - y0⟩] := by
  show segsList (n + 2 + 1) _ _ = _
  simp only [segsList, Rectangle.bottom_right, Point.add_def, Point.is_below,
    Point.is_right_of]
  norm_num
  simp only [if_pos (show H < y0 + h by linarith),
    if_neg (show ¬ H < y0 + h - H by linarith),
    if_neg (show ¬ W < x0 + w by linarith),
    min_eq_left (show w ≤ W - x0 by linarith),
    min_eq_left (show y0 + h - H ≤ H by linarith),
    min_eq_right (show H - y0 ≤ h by linarith),
    List.nil_append, List.append_nil, List.cons_append, List.singleton_append]

/-- Evaluation with right overflow only: wrap piece, then clipped piece. -/
theorem segsList_eval_bx (n : Nat) (x0 y0 w h W H : ℚ)
    (hx0 : 0 ≤ x0) (hxW : x0 < W) (hy0 : 0 ≤ y0) (hyH : y0 < H)
    (hw0 : 0 < w) (hwW : w ≤ W) (hh0 : 0 < h) (hhH : h ≤ H)
    (hbx : W < x0 + w) (hby : y0 + h ≤ H) :
    segsList (n + 3) ⟨⟨x0, y0⟩, w, h⟩ ⟨W, H⟩ =
      [⟨⟨0, y0⟩, x0 + w - W, h⟩, ⟨⟨x0, y0⟩, W - x0, h⟩] := by
  show segsList (n + 2 + 1) _ _ = _
  simp only [segsList, Rectangle.bottom_right, Point.add_def, Point.is_below,
    Point.is_right_of]
  norm_num
  simp only [if_pos (show W < x0 + w by linarith),
    if_neg (show ¬ H < y0 + h by linarith),
    if_neg (show ¬ W < x0 + w - W by linarith),
    min_eq_left (show x0 + w - W ≤ W by linarith),
    min_eq_left (show h ≤ H - y0 by linarith),
    min_eq_right (show W - x0 ≤ w by linarith),
    List.nil_append, List.append_nil, List.cons_append, List.singleton_append]

/-- `Rectangle::overlap` is `none` whenever the rectangles are separated
along some axis. -/
theorem Rectangle.overlap_none (s t : Rectangle)
    (hsep : t.top_left.x + t.width ≤ s.top_left.x ∨ s.top_left.x + s.width ≤ t.top_left.x ∨
        t.top_left.y + t.height ≤ s.top_left.y ∨ s.top_left.y + s.height ≤ t.top_left.y) :
    s.overlap t = none := by
  unfold Rectangle.overlap
  dsimp only
  refine if_neg ?_
  rintro ⟨h1, h2, h3, h4⟩
  simp only [Rectangle.bottom_right, Point.add_def] at h1 h2 h3 h4
  rcases hsep with h | h | h | h <;> linarith

/-- One axis of the torus-covering argument: for `0 ≤ a < W`, `0 < w ≤ W`,
a world coordinate `x ∈ [0, W)` has an integer translate in `[a, a + w)`
exactly when it lies in the clipped interval `[a, min (a+w) W)` or in the
wrapped interval `[0, a + w - W)`. -/
theorem axis_cover {a w W x : ℚ} (ha0 : 0 ≤ a) (haW : a < W) (hw0 : 0 < w) (hwW : w ≤ W)
    (hx0 : 0 ≤ x) (hxW : x < W) :
    (∃ k : ℤ, a ≤ x + k * W ∧ x + k * W < a + w) ↔
      ((a ≤ x ∧ x < min (a + w) W) ∨ (0 ≤ x ∧ x < a + w - W)) := by
  constructor
  · rintro ⟨k, hk1, hk2⟩
    have hWpos : (0:ℚ) < W := lt_of_le_of_lt ha0 haW
    have hkgt : (-1 : ℤ) < k := by
      by_contra hle
      push_neg at hle
      have hq : (k : ℚ) ≤ -1 := by exact_mod_cast hle
      have : (k : ℚ) * W ≤ (-1) * W := mul_le_mul_of_nonneg_right hq (le_of_lt hWpos)
      linarith
    have hklt : k < 2 := by
      by_contra hge
      push_neg at hge
      have hq : (2 : ℚ) ≤ (k : ℚ) := by exact_mod_cast hge
      have : (2 : ℚ) * W ≤ (k : ℚ) * W := mul_le_mul_of_nonneg_right hq (le_of_lt hWpos)
      linarith
    interval_cases k
    · left
      push_cast at hk1 hk2
      constructor
      · linarith
      · exact lt_min (by linarith) hxW
    · right
      push_cast at hk1 hk2
      exact ⟨hx0, by linarith⟩
  · have hWpos : (0:ℚ) < W := lt_of_le_of_lt ha0 haW
    rintro (⟨h1, h2⟩ | ⟨h1, h2⟩)
    · have h2' : x < a + w := lt_of_lt_of_le h2 (min_le_left _ _)
      refine ⟨0, ?_, ?_⟩ <;> push_cast <;> linarith
    · refine ⟨1, ?_, ?_⟩ <;> push_cast <;> linarith

/-- **C3** (`functional_correctness`, corrected): for a rectangle with
top-left inside the world and positive size at most the world size, the
segmentation emits at most five rectangles drawn from at most four distinct
pieces (canonical, bottom wrap, right wrap, corner — the corner piece is
emitted twice when both edges overflow, so a piece can be emitted twice and
the emission count can exceed three); distinct pieces are pairwise
non-overlapping, every piece lies inside one world period, and the union of
the pieces is exactly the logical, infinitely-tiled rectangle intersected
with one world period — the segmentation is exact and exhaustive.  Stated
for every fuel value of the form `n + 3`; the evaluation lemmas above show
the result is independent of `n`. -/
theorem C3_segmentation (n : Nat) (r : Rectangle) (W H : ℚ)
    (hx0 : 0 ≤ r.top_left.x) (hxW : r.top_left.x < W)
    (hy0 : 0 ≤ r.top_left.y) (hyH : r.top_left.y < H)
    (hw0 : 0 < r.width) (hwW : r.width ≤ W)
    (hh0 : 0 < r.height) (hhH : r.height ≤ H) :
    (segsList (n + 3) r ⟨W, H⟩).length ≤ 5 ∧
    (∃ c b rr can : Rectangle, ∀ s ∈ segsList (n + 3) r ⟨W, H⟩,
        s = c ∨ s = b ∨ s = rr ∨ s = can) ∧
    (∀ s ∈ segsList (n + 3) r ⟨W, H⟩,
        0 ≤ s.top_left.x ∧ s.bottom_right.x ≤ W ∧
        0 ≤ s.top_left.y ∧ s.bottom_right.y ≤ H) ∧
    (∀ s ∈ segsList (n + 3) r ⟨W, H⟩, ∀ t ∈ segsList (n + 3) r ⟨W, H⟩,
        s ≠ t → s.overlap t = none) ∧
    (∀ p : Point, (∃ s ∈ segsList (n + 3) r ⟨W, H⟩, s.memP p) ↔
        (inWorld ⟨W, H⟩ p ∧ tiledMem r ⟨W, H⟩ p)) := by
  obtain ⟨⟨x0, y0⟩, w, h⟩ := r
  simp only at hx0 hxW hy0 hyH hw0 hwW hh0 hhH
  rcases le_or_lt (x0 + w) W with hbx | hbx <;> rcases le_or_lt (y0 + h) H with hby | hby
  · -- no overflow
    rw [segsList_eval_nn n x0 y0 w h W H hx0 hxW hy0 hyH hw0 hwW hh0 hhH hbx hby]
    refine ⟨by simp, ?_, ?_, ?_, ?_⟩
    · exact ⟨⟨⟨x0, y0⟩, w, h⟩, ⟨⟨x0, y0⟩, w, h⟩, ⟨⟨x0, y0⟩, w, h⟩, ⟨⟨x0, y0⟩, w, h⟩,
        by intro s hs; simp only [List.mem_singleton] at hs; tauto⟩
    · intro s hs
      simp only [List.mem_singleton] at hs
      subst hs
      simp only [Rectangle.bottom_right, Point.add_def]
      refine ⟨by linarith, by linarith, by linarith, by linarith⟩
    · intro s hs t ht hne
      simp only [List.mem_singleton] at hs ht
      subst hs; subst ht
      exact absurd rfl hne
    · intro p
      obtain ⟨px, py⟩ := p
      constructor
      · rintro ⟨s, hs, hmem⟩
        simp only [List.mem_singleton] at hs
        subst hs
        simp only [Rectangle.memP] at hmem
        obtain ⟨m1, m2, m3, m4⟩ := hmem
        refine ⟨⟨by linarith, by linarith, by linarith, by linarith⟩, 0, 0, ?_⟩
        simp only [Rectangle.memP]
        push_cast
        refine ⟨by linarith, by linarith, by linarith, by linarith⟩
      · rintro ⟨⟨hpx0, hpxW, hpy0, hpyH⟩, k, j, hmem⟩
        simp only [Rectangle.memP] at hmem
        obtain ⟨m1, m2, m3, m4⟩ := hmem
        have hax := (axis_cover hx0 hxW hw0 hwW hpx0 hpxW).mp ⟨k, m1, m2⟩
        have hay := (axis_cover hy0 hyH hh0 hhH hpy0 hpyH).mp ⟨j, m3, m4⟩
        rcases hax with ⟨hx1, hx2⟩ | ⟨hx1, hx2⟩ <;> rcases hay with ⟨hy1, hy2⟩ | ⟨hy1, hy2⟩
        · have hx2' : px < x0 + w := lt_of_lt_of_le hx2 (min_le_left _ _)
          have hy2' : py < y0 + h := lt_of_lt_of_le hy2 (min_le_left _ _)
          refine ⟨⟨⟨x0, y0⟩, w, h⟩, by simp, ?_⟩
          simp only [Rectangle.memP]
          refine ⟨by linarith, by linarith, by linarith, by linarith⟩
        · exact absurd hy2 (by linarith)
        · exact absurd hx2 (by linarith)
        · exact absurd hx2 (by linarith)
  · -- bottom overflow only
    rw [segsList_eval_by n x0 y0 w h W H hx0 hxW hy0 hyH hw0 hwW hh0 hhH hbx hby]
    refine ⟨by simp, ?_, ?_, ?_, ?_⟩
    · exact ⟨⟨⟨x0, 0⟩, w, y0 + h - H⟩, ⟨⟨x0, 0⟩, w, y0 + h - H⟩,
        ⟨⟨x0, y0⟩, w, H - y0⟩, ⟨⟨x0, y0⟩, w, H - y0⟩,
        by intro s hs; simp only [List.mem_cons, List.not_mem_nil, or_false] at hs; tauto⟩
    · intro s hs
      simp only [List.mem_cons, List.not_mem_nil, or_false] at hs
      rcases hs with rfl | rfl <;>
        simp only [Rectangle.bottom_right, Point.add_def] <;>
        refine ⟨by linarith, by linarith, by linarith, by linarith⟩
    · intro s hs t ht hne
      simp only [List.mem_cons, List.not_mem_nil, or_false] at hs ht
      rcases hs with rfl | rfl <;> rcases ht with rfl | rfl <;>
        first
          | exact absurd rfl hne
          | exact Rectangle.overlap_none _ _ (by dsimp only; left; linarith)
          | exact Rectangle.overlap_none _ _ (by dsimp only; right; left; linarith)
          | exact Rectangle.overlap_none _ _ (by dsimp only; right; right; left; linarith)
          | exact Rectangle.overlap_none _ _ (by dsimp only; right; right; right; linarith)
    · intro p
      obtain ⟨px, py⟩ := p
      constructor
      · rintro ⟨s, hs, hmem⟩
        simp only [List.mem_cons, List.not_mem_nil, or_false] at hs
        rcases hs with rfl | rfl <;>
          simp only [Rectangle.memP] at hmem <;>
          obtain ⟨m1, m2, m3, m4⟩ := hmem
        · refine ⟨⟨by linarith, by linarith, by linarith, by linarith⟩, 0, 1, ?_⟩
          simp only [Rectangle.memP]
          push_cast
          refine ⟨by linarith, by linarith, by linarith, by linarith⟩
        · refine ⟨⟨by linarith, by linarith, by linarith, by linarith⟩, 0, 0, ?_⟩
          simp only [Rectangle.memP]
          push_cast
          refine ⟨by linarith, by linarith, by linarith, by linarith⟩
      · rintro ⟨⟨hpx0, hpxW, hpy0, hpyH⟩, k, j, hmem⟩
        simp only [Rectangle.memP] at hmem
        obtain ⟨m1, m2, m3, m4⟩ := hmem
        have hax := (axis_cover hx0 hxW hw0 hwW hpx0 hpxW).mp ⟨k, m1, m2⟩
        have hay := (axis_cover hy0 hyH hh0 hhH hpy0 hpyH).mp ⟨j, m3, m4⟩
        rcases hax with ⟨hx1, hx2⟩ | ⟨hx1, hx2⟩ <;> rcases hay with ⟨hy1, hy2⟩ | ⟨hy1, hy2⟩
        · have hx2' : px < x0 + w := lt_of_lt_of_le hx2 (min_le_left _ _)
          have hy2' : py < H := lt_of_lt_of_le hy2 (min_le_right _ _)
          refine ⟨⟨⟨x0, y0⟩, w, H - y0⟩, by simp, ?_⟩
          simp only [Rectangle.memP]
          refine ⟨by linarith, by linarith, by linarith, by linarith⟩
        · have hx2' : px < x0 + w := lt_of_lt_of_le hx2 (min_le_left _ _)
          refine ⟨⟨⟨x0, 0⟩, w, y0 + h - H⟩, by simp, ?_⟩
          simp only [Rectangle.memP]
          refine ⟨by linarith, by linarith, by linarith, by linarith⟩
        · exact absurd hx2 (by linarith)
        · exact absurd hx2 (by linarith)
  · -- right overflow only
    rw [segsList_eval_bx n x0 y0 w h W H hx0 hxW hy0 hyH hw0 hwW hh0 hhH hbx hby]
    refine ⟨by simp, ?_, ?_, ?_, ?_⟩
    · exact ⟨⟨⟨0, y0⟩, x0 + w - W, h⟩, ⟨⟨0, y0⟩, x0 + w - W, h⟩,
        ⟨⟨x0, y0⟩, W - x0, h⟩, ⟨⟨x0, y0⟩, W - x0, h⟩,
        by intro s hs; simp only [List.mem_cons, List.not_mem_nil, or_false] at hs; tauto⟩
    · intro s hs
      simp only [List.mem_cons, List.not_mem_nil, or_false] at hs
      rcases hs with rfl | rfl <;>
        simp only [Rectangle.bottom_right, Point.add_def] <;>
        refine ⟨by linarith, by linarith, by linarith, by linarith⟩
    · intro s hs t ht hne
      simp only [List.mem_cons, List.not_mem_nil, or_false] at hs ht
      rcases hs with rfl | rfl <;> rcases ht with rfl | rfl <;>
        first
          | exact absurd rfl hne
          | exact Rectangle.overlap_none _ _ (by dsimp only; left; linarith)
          | exact Rectangle.overlap_none _ _ (by dsimp only; right; left; linarith)
          | exact Rectangle.overlap_none _ _ (by dsimp only; right; right; left; linarith)
          | exact Rectangle.overlap_none _ _ (by dsimp only; right; right; right; linarith)
    · intro p
      obtain ⟨px, py⟩ := p
      constructor
      · rintro ⟨s, hs, hmem⟩
        simp only [List.mem_cons, List.not_mem_nil, or_false] at hs
        rcases hs with rfl | rfl <;>
          simp only [Rectangle.memP] at hmem <;>
          obtain ⟨m1, m2, m3, m4⟩ := hmem
        · refine ⟨⟨by linarith, by linarith, by linarith, by linarith⟩, 1, 0, ?_⟩
          simp only [Rectangle.memP]
          push_cast
          refine ⟨by linarith, by linarith, by linarith, by linarith⟩
        · refine ⟨⟨by linarith, by linarith, by linarith, by linarith⟩, 0, 0, ?_⟩
          simp only [Rectangle.memP]
          push_cast
          refine ⟨by linarith, by linarith, by linarith, by linarith⟩
      · rintro ⟨⟨hpx0, hpxW, hpy0, hpyH⟩, k, j, hmem⟩
        simp only [Rectangle.memP] at hmem
        obtain ⟨m1, m2, m3, m4⟩ := hmem
        have hax := (axis_cover hx0 hxW hw0 hwW hpx0 hpxW).mp ⟨k, m1, m2⟩
        have hay := (axis_cover hy0 hyH hh0 hhH hpy0 hpyH).mp ⟨j, m3, m4⟩
        rcases hax with ⟨hx1, hx2⟩ | ⟨hx1, hx2⟩ <;> rcases hay with ⟨hy1, hy2⟩ | ⟨hy1, hy2⟩
        · have hx2' : px < W := lt_of_lt_of_le hx2 (min_le_right _ _)
          have hy2' : py < y0 + h := lt_of_lt_of_le hy2 (min_le_left _ _)
          refine ⟨⟨⟨x0, y0⟩, W - x0, h⟩, by simp, ?_⟩
          simp only [Rectangle.memP]
          refine ⟨by linarith, by linarith, by linarith, by linarith⟩
        · exact absurd hy2 (by linarith)
        · have hy2' : py < y0 + h := lt_of_lt_of_le hy2 (min_le_left _ _)
          refine ⟨⟨⟨0, y0⟩, x0 + w - W, h⟩, by simp, ?_⟩
          simp only [Rectangle.memP]
          refine ⟨by linarith, by linarith, by linarith, by linarith⟩
        · exact absurd hy2 (by linarith)
  · -- both overflow
    rw [segsList_eval_bb n x0 y0 w h W H hx0 hxW hy0 hyH hw0 hwW hh0 hhH hbx hby]
    refine ⟨by simp, ?_, ?_, ?_, ?_⟩
    · exact ⟨⟨⟨0, 0⟩, x0 + w - W, y0 + h - H⟩, ⟨⟨x0, 0⟩, W - x0, y0 + h - H⟩,
        ⟨⟨0, y0⟩, x0 + w - W, H - y0⟩, ⟨⟨x0, y0⟩, W - x0, H - y0⟩,
        by intro s hs; simp only [List.mem_cons, List.not_mem_nil, or_false] at hs; tauto⟩
    · intro s hs
      simp only [List.mem_cons, List.not_mem_nil, or_false] at hs
      rcases hs with rfl | rfl | rfl | rfl | rfl <;>
        simp only [Rectangle.bottom_right, Point.add_def] <;>
        refine ⟨by linarith, by linarith, by linarith, by linarith⟩
    · intro s hs t ht hne
      simp only [List.mem_cons, List.not_mem_nil, or_false] at hs ht
      rcases hs with rfl | rfl | rfl | rfl | rfl <;> rcases ht with rfl | rfl | rfl | rfl | rfl <;>
        first
          | exact absurd rfl hne
          | exact Rectangle.overlap_none _ _ (by dsimp only; left; linarith)
          | exact Rectangle.overlap_none _ _ (by dsimp only; right; left; linarith)
          | exact Rectangle.overlap_none _ _ (by dsimp only; right; right; left; linarith)
          | exact Rectangle.overlap_none _ _ (by dsimp only; right; right; right; linarith)
    · intro p
      obtain ⟨px, py⟩ := p
      constructor
      · rintro ⟨s, hs, hmem⟩
        simp only [List.mem_cons, List.not_mem_nil, or_false] at hs
        rcases hs with rfl | rfl | rfl | rfl | rfl <;>
          simp only [Rectangle.memP] at hmem <;>
          obtain ⟨m1, m2, m3, m4⟩ := hmem
        · refine ⟨⟨by linarith, by linarith, by linarith, by linarith⟩, 1, 1, ?_⟩
          simp only [Rectangle.memP]
          push_cast
          refine ⟨by linarith, by linarith, by linarith, by linarith⟩
        · refine ⟨⟨by linarith, by linarith, by linarith, by linarith⟩, 0, 1, ?_⟩
          simp only [Rectangle.memP]
          push_cast
          refine ⟨by linarith, by linarith, by linarith, by linarith⟩
        · refine ⟨⟨by linarith, by linarith, by linarith, by linarith⟩, 1, 1, ?_⟩
          simp only [Rectangle.memP]
          push_cast
          refine ⟨by linarith, by linarith, by linarith, by linarith⟩
        · refine ⟨⟨by linarith, by linarith, by linarith, by linarith⟩, 1, 0, ?_⟩
          simp only [Rectangle.memP]
          push_cast
          refine ⟨by linarith, by linarith, by linarith, by linarith⟩
        · refine ⟨⟨by linarith, by linarith, by linarith, by linarith⟩, 0, 0, ?_⟩
          simp only [Rectangle.memP]
          push_cast
          refine ⟨by linarith, by linarith, by linarith, by linarith⟩
      · rintro ⟨⟨hpx0, hpxW, hpy0, hpyH⟩, k, j, hmem⟩
        simp only [Rectangle.memP] at hmem
        obtain ⟨m1, m2, m3, m4⟩ := hmem
        have hax := (axis_cover hx0 hxW hw0 hwW hpx0 hpxW).mp ⟨k, m1, m2⟩
        have hay := (axis_cover hy0 hyH hh0 hhH hpy0 hpyH).mp ⟨j, m3, m4⟩
        rcases hax with ⟨hx1, hx2⟩ | ⟨hx1, hx2⟩ <;> rcases hay with ⟨hy1, hy2⟩ | ⟨hy1, hy2⟩
        · have hx2' : px < W := lt_of_lt_of_le hx2 (min_le_right _ _)
          have hy2' : py < H := lt_of_lt_of_le hy2 (min_le_right _ _)
          refine ⟨⟨⟨x0, y0⟩, W - x0, H - y0⟩, by simp, ?_⟩
          simp only [Rectangle.memP]
          refine ⟨by linarith, by linarith, by linarith, by linarith⟩
        · have hx2' : px < W := lt_of_lt_of_le hx2 (min_le_right _ _)
          refine ⟨⟨⟨x0, 0⟩, W - x0, y0 + h - H⟩, by simp, ?_⟩
          simp only [Rectangle.memP]
          refine ⟨by linarith, by linarith, by linarith, by linarith⟩
        · have hy2' : py < H := lt_of_lt_of_le hy2 (min_le_right _ _)
          refine ⟨⟨⟨0, y0⟩, x0 + w - W, H - y0⟩, by simp, ?_⟩
          simp only [Rectangle.memP]
          refine ⟨by linarith, by linarith, by linarith, by linarith⟩
        · refine ⟨⟨⟨0, 0⟩, x0 + w - W, y0 + h - H⟩, by simp, ?_⟩
          simp only [Rectangle.memP]
          refine ⟨by linarith, by linarith, by linarith, by linarith⟩

/-- Counterexample to **C3** as stated: at the double-overflow rectangle
`(8,8)` size `4×4` in a `10×10` world (top-left inside the world), the
segmentation emits five rectangles — more than three — and the corner piece
`(0,0) 2×2` is emitted twice; moreover, for a rectangle wider than the world
(`(0,0)` size `15×5`, also with top-left inside the world, which the claim's
hypotheses admit), two emitted pieces overlap each other with positive
area. -/
theorem C3_counterexample :
    (segsList 5 ⟨⟨8, 8⟩, 4, 4⟩ ⟨10, 10⟩ =
        [⟨⟨0, 0⟩, 2, 2⟩, ⟨⟨8, 0⟩, 2, 2⟩, ⟨⟨0, 0⟩, 2, 2⟩, ⟨⟨0, 8⟩, 2, 2⟩, ⟨⟨8, 8⟩, 2, 2⟩] ∧
     (segsList 5 ⟨⟨8, 8⟩, 4, 4⟩ ⟨10, 10⟩).length = 5 ∧
     ¬ (segsList 5 ⟨⟨8, 8⟩, 4, 4⟩ ⟨10, 10⟩).Nodup) ∧
    (segsList 5 ⟨⟨0, 0⟩, 15, 5⟩ ⟨10, 10⟩ = [⟨⟨0, 0⟩, 5, 5⟩, ⟨⟨0, 0⟩, 10, 5⟩] ∧
     Rectangle.overlap ⟨⟨0, 0⟩, 5, 5⟩ ⟨⟨0, 0⟩, 10, 5⟩ = some ⟨⟨0, 0⟩, 5, 5⟩) := by
  decide

/-- Witness for C3 at the double-overflow rectangle. -/
theorem C3_segmentation_witness :
    ((0:ℚ) ≤ (Rectangle.mk ⟨8, 8⟩ 4 4).top_left.x ∧
     (Rectangle.mk ⟨8, 8⟩ 4 4).top_left.x < 10 ∧
     (0:ℚ) < (Rectangle.mk ⟨8, 8⟩ 4 4).width ∧
     (Rectangle.mk ⟨8, 8⟩ 4 4).width ≤ 10) ∧
    ((segsList (0 + 3) ⟨⟨8, 8⟩, 4, 4⟩ ⟨10, 10⟩).length ≤ 5 ∧
     (∃ c b rr can : Rectangle, ∀ s ∈ segsList (0 + 3) ⟨⟨8, 8⟩, 4, 4⟩ ⟨10, 10⟩,
         s = c ∨ s = b ∨ s = rr ∨ s = can) ∧
     (∀ s ∈ segsList (0 + 3) ⟨⟨8, 8⟩, 4, 4⟩ ⟨10, 10⟩,
         0 ≤ s.top_left.x ∧ s.bottom_right.x ≤ 10 ∧
         0 ≤ s.top_left.y ∧ s.bottom_right.y ≤ 10) ∧
     (∀ s ∈ segsList (0 + 3) ⟨⟨8, 8⟩, 4, 4⟩ ⟨10, 10⟩,
         ∀ t ∈ segsList (0 + 3) ⟨⟨8, 8⟩, 4, 4⟩ ⟨10, 10⟩,
         s ≠ t → s.overlap t = none) ∧
     (∀ p : Point, (∃ s ∈ segsList (0 + 3) ⟨⟨8, 8⟩, 4, 4⟩ ⟨10, 10⟩, s.memP p) ↔
         (inWorld ⟨10, 10⟩ p ∧ tiledMem ⟨⟨8, 8⟩, 4, 4⟩ ⟨10, 10⟩ p))) :=
  ⟨⟨by decide, by decide, by decide, by decide⟩,
   C3_segmentation 0 ⟨⟨8, 8⟩, 4, 4⟩ 10 10 (by decide) (by decide) (by decide) (by decide)
     (by decide) (by decide) (by decide) (by decide)⟩

/-! ## C10 -/

/-- **C10** (`frame_effect`, confirmed): a `move_entity` call — its recursive
pushes included — leaves every entity's velocity, animation, moveable flag
and color untouched (those component slabs are equal before and after), and
preserves the world bounds, square side and time; every entity's width and
height are preserved; and every entity whose `moved_this_action` flag is
still `false` after the call (i.e. every entity other than the mover and the
recursively pushed moveable entities) has an unchanged position — so the only
state modified is top-left positions of visited entities and the
`moved_this_action` flags.  Stated for the wrapper and, via
`move_entity_fuel_frame`, true of every recursion depth. -/
theorem C10_move_entity_frame_effect (g : Game) (e : Nat) (d : Point) :
    ((Game.move_entity g e d).1.velocities = g.velocities ∧
     (Game.move_entity g e d).1.animations = g.animations ∧
     (Game.move_entity g e d).1.moveable = g.moveable ∧
     (Game.move_entity g e d).1.colors = g.colors ∧
     (Game.move_entity g e d).1.square_side_length = g.square_side_length ∧
     (Game.move_entity g e d).1.bottom_right = g.bottom_right ∧
     (Game.move_entity g e d).1.time = g.time) ∧
    (∀ i, (Slab.read (Game.move_entity g e d).1.positions i).map
            (fun r => (r.width, r.height)) =
          (Slab.read g.positions i).map (fun r => (r.width, r.height))) ∧
    (∀ i, Slab.read (Game.move_entity g e d).1.moved_this_action i = some false →
          Slab.read (Game.move_entity g e d).1.positions i = Slab.read g.positions i) := by
  have h := move_entity_fuel_frame (g.positions.length + 5) g e d
  exact ⟨⟨h.velocitiesEq, h.animationsEq, h.moveableEq, h.colorsEq, h.square,
    h.bottomRight, h.timeEq⟩, h.posSizes, h.posOfUnmoved⟩
